import Mathlib

/-!
# Verification of the PANDA record/replay nondeterminism log (`panda/src/rr/rr_log.c`)

A shallow embedding of the record/replay log subsystem: the log entry data
model, the sequential binary codec (`rr_write_item` / `rr_read_item`), the
record-side capture functions with their compaction rules, the replay-side
prefetch queue (`rr_fill_queue` / `get_next_entry`) and the typed replay
dispatchers, and the session controller state transitions.

Modelling conventions:
* Machine integers are `Nat` with explicit bounds (`< 256 ^ w`); buffers are
  `List Nat`.
* The on-disk byte stream is a `List Nat` of byte values; `fwrite`/`fread` of a
  single field become `bytesLE`/`readLE` at the field's width.  Byte order in
  the C code is host-native; we fix little-endian (the codec claims only need
  the encoder and the decoder to agree, which they do in C by construction).
* Fatal `rr_assert` failures (which `abort()` the process) are modelled as
  `Option.none` results; normal completion is `some`.
* Functions that read external emulator state (`rr_prog_point()`,
  `rr_get_guest_instr_count()`) receive that state as an explicit argument.
* The globals a function touches are gathered into explicit state structures
  (`RecordState` for the record side, `ReplayState` for the replay side).
* The struct and enum declarations live in `panda/rr/rr_log.h`, which is not
  part of the sources; field layouts and enum orders below are modelled from
  the spec (§3, §6) where noted.
-/

/-! ## Little-endian byte codec primitives -/

/-- Serialize `v` as `n` little-endian bytes (the effect of `fwrite(&field,
sizeof(field), 1)` for an `n`-byte integer field, with little-endian host). -/
def bytesLE : Nat → Nat → List Nat
  | 0, _ => []
  | n + 1, v => v % 256 :: bytesLE n (v / 256)

/-- Read `n` little-endian bytes into a value (the effect of `fread(&field,
sizeof(field), 1)`); `none` models the short-read `rr_assert` in `rr_fread`. -/
def readLE : Nat → List Nat → Option (Nat × List Nat)
  | 0, bs => some (0, bs)
  | _ + 1, [] => none
  | n + 1, b :: bs =>
    match readLE n bs with
    | none => none
    | some (v, rest) => some (b + 256 * v, rest)

/-- Read a raw byte buffer of `k` bytes (the effect of `rr_fread(buf, 1, k)`);
`none` models the short-read `rr_assert`. -/
def readBytes (k : Nat) (bs : List Nat) : Option (List Nat × List Nat) :=
  if k ≤ bs.length then some (bs.take k, bs.drop k) else none

theorem bytesLE_length (n v : Nat) : (bytesLE n v).length = n := by
  induction n generalizing v with
  | zero => simp [bytesLE]
  | succ k ih => simp [bytesLE, ih]

theorem readLE_bytesLE (n v : Nat) (rest : List Nat) (h : v < 256 ^ n) :
    readLE n (bytesLE n v ++ rest) = some (v, rest) := by
  induction n generalizing v with
  | zero =>
    have : v = 0 := by simpa using h
    simp [this, bytesLE, readLE]
  | succ k ih =>
    have hdiv : v / 256 < 256 ^ k := by
      rw [Nat.div_lt_iff_lt_mul (by omega : 0 < 256)]
      calc v < 256 ^ (k + 1) := h
        _ = 256 ^ k * 256 := by rw [Nat.pow_succ]
    simp only [bytesLE, List.cons_append, readLE, List.append_eq]
    rw [ih (v / 256) hdiv]
    have : v % 256 + 256 * (v / 256) = v := by
      have := Nat.mod_add_div' v 256
      omega
    simp [this]

theorem readBytes_append (buf rest : List Nat) :
    readBytes buf.length (buf ++ rest) = some (buf, rest) := by
  simp [readBytes, List.take_left, List.drop_left]

/-! ## Data model: program points, entry kinds, variants -/

/-- `RR_prog_point` — triple of `u64` fields (`rr_log.h`, spec §3). -/
structure RR_prog_point where
  guest_instr_count : Nat
  pc : Nat
  secondary : Nat
deriving DecidableEq, Repr

/-- `RR_log_entry_kind` — the closed enumeration of entry kinds.  The numeric
values come from the header (not in the sources); the stats arrays
`rr_number_of_log_entries[RR_LAST]` and the stats loop `for (i = 0; i < RR_LAST;
...)` in `rr_do_end_replay` show `RR_LAST` is the largest enumerator. -/
inductive RR_log_entry_kind where
  | RR_INPUT_1
  | RR_INPUT_2
  | RR_INPUT_4
  | RR_INPUT_8
  | RR_INTERRUPT_REQUEST
  | RR_EXIT_REQUEST
  | RR_SKIPPED_CALL
  | RR_DEBUG
  | RR_LAST
deriving DecidableEq, Repr

open RR_log_entry_kind

/-- Numeric code of an entry kind, as stored in the 4-byte `kind` field. -/
def kindCode : RR_log_entry_kind → Nat
  | RR_INPUT_1 => 0
  | RR_INPUT_2 => 1
  | RR_INPUT_4 => 2
  | RR_INPUT_8 => 3
  | RR_INTERRUPT_REQUEST => 4
  | RR_EXIT_REQUEST => 5
  | RR_SKIPPED_CALL => 6
  | RR_DEBUG => 7
  | RR_LAST => 8

/-- `RR_skipped_call_args` — the sub-variants of a skipped call.  Buffer length
fields (`len`, `size`) are represented by the length of the corresponding
`List Nat`; `old_buf_addr` keeps the recorded (meaningless across runs) host
pointer of `handle_packet_args.buf`, as the decoder does.  Field layouts are
modelled from the spec's payload table (§6); the defining C structs are in the
header, not in the sources. -/
inductive RR_skipped_call_args where
  | cpu_mem_rw (addr : Nat) (buf : List Nat)
  | cpu_mem_unmap (addr : Nat) (buf : List Nat)
  | mem_region_change (start_addr : Nat) (size : Nat) (mtype : Nat) (added : Bool)
      (name : List Nat)
  | hd_transfer (ttype : Nat) (src_addr : Nat) (dest_addr : Nat) (num_bytes : Nat)
  | net_transfer (ttype : Nat) (src_addr : Nat) (dest_addr : Nat) (num_bytes : Nat)
  | handle_packet (old_buf_addr : Nat) (direction : Nat) (buf : List Nat)
deriving DecidableEq, Repr

/-- Numeric code of a skipped-call sub-kind, as stored in the leading 4-byte
sub-kind field (order of the `switch` in `rr_write_item`; exact enum values are
in the header — only injectivity matters to the claims). -/
def skippedCallKindCode : RR_skipped_call_args → Nat
  | .cpu_mem_rw _ _ => 0
  | .cpu_mem_unmap _ _ => 1
  | .mem_region_change _ _ _ _ _ => 2
  | .hd_transfer _ _ _ _ => 3
  | .net_transfer _ _ _ _ => 4
  | .handle_packet _ _ _ => 5

/-- The payload union of a log entry.  `rdebug` / `rlast` carry no payload. -/
inductive RR_variant where
  | input_1 (v : Nat)
  | input_2 (v : Nat)
  | input_4 (v : Nat)
  | input_8 (v : Nat)
  | interrupt_request (v : Nat)
  | exit_request (v : Nat)
  | skipped_call (args : RR_skipped_call_args)
  | rdebug
  | rlast
deriving DecidableEq, Repr

/-- `RR_log_entry` — header (program point, callsite) plus payload.  The
header's `kind` field is derived from the variant (`RR_log_entry.kind`): the C
capture functions always set the two consistently. -/
structure RR_log_entry where
  prog_point : RR_prog_point
  callsite_loc : Nat
  variant : RR_variant
deriving DecidableEq, Repr

/-- The `kind` header field determined by the payload variant. -/
def RR_log_entry.kind (e : RR_log_entry) : RR_log_entry_kind :=
  match e.variant with
  | .input_1 _ => RR_INPUT_1
  | .input_2 _ => RR_INPUT_2
  | .input_4 _ => RR_INPUT_4
  | .input_8 _ => RR_INPUT_8
  | .interrupt_request _ => RR_INTERRUPT_REQUEST
  | .exit_request _ => RR_EXIT_REQUEST
  | .skipped_call _ => RR_SKIPPED_CALL
  | .rdebug => RR_DEBUG
  | .rlast => RR_LAST

/-- A zero-initialized log entry (kind code 0, all fields 0), as in the
zero-initialized globals `rr_log_entry_history`. -/
instance : Inhabited RR_log_entry := ⟨⟨⟨0, 0, 0⟩, 0, .input_1 0⟩⟩

/-- `interrupt_request` payload accessor (union read; the callers only use it
on entries whose kind is `RR_INTERRUPT_REQUEST`). -/
def RR_log_entry.interrupt_value (e : RR_log_entry) : Nat :=
  match e.variant with
  | .interrupt_request v => v
  | _ => 0

/-- `exit_request` payload accessor (union read; the callers only use it on
entries whose kind is `RR_EXIT_REQUEST`). -/
def RR_log_entry.exit_value (e : RR_log_entry) : Nat :=
  match e.variant with
  | .exit_request v => v
  | _ => 0

/-- Callsite id of the `RR_LAST` terminator (`RR_CALLSITE_LAST`).  The enum
values live in the header; the claims use callsite ids only up to equality. -/
def RR_CALLSITE_LAST : Nat := 1

/-- `RR_CALLSITE_MAIN_LOOP_WAIT` (see `RR_CALLSITE_LAST` about the value). -/
def RR_CALLSITE_MAIN_LOOP_WAIT : Nat := 0

/-! ## Encoder: `rr_write_item` (serialization of one entry)

The C `rr_write_item` writes each header field individually (`RR_WRITE_ITEM`:
program point, kind, callsite), then dispatches on the kind to write the
variant payload, then any variable-length tail with `rr_fwrite`.  Here the
function returns the byte stream it appends to the log file; the bookkeeping
side effects (`last_prog_point`, `item_number`) are modelled on `RecordState`
below. -/

/-- Payload bytes of a skipped call: the 4-byte sub-kind first (mz "write kind
first!"), then the args struct (field layout per spec §6), then the tail
buffer where present. -/
def rr_write_skipped_call (args : RR_skipped_call_args) : List Nat :=
  bytesLE 4 (skippedCallKindCode args) ++
  match args with
  | .cpu_mem_rw addr buf => bytesLE 8 addr ++ bytesLE 4 buf.length ++ buf
  | .cpu_mem_unmap addr buf => bytesLE 8 addr ++ bytesLE 8 buf.length ++ buf
  | .mem_region_change start_addr size mtype added name =>
      bytesLE 8 start_addr ++ bytesLE 8 size ++ bytesLE 4 name.length ++
      bytesLE 4 mtype ++ bytesLE 1 (if added then 1 else 0) ++ name
  | .hd_transfer ttype src_addr dest_addr num_bytes =>
      bytesLE 4 ttype ++ bytesLE 8 src_addr ++ bytesLE 8 dest_addr ++
      bytesLE 4 num_bytes
  | .net_transfer ttype src_addr dest_addr num_bytes =>
      bytesLE 4 ttype ++ bytesLE 8 src_addr ++ bytesLE 8 dest_addr ++
      bytesLE 4 num_bytes
  | .handle_packet old_buf_addr direction buf =>
      bytesLE 8 old_buf_addr ++ bytesLE 4 buf.length ++ bytesLE 1 direction ++ buf

/-- The byte stream `rr_write_item` appends for one entry: program point
(three `u64`s), kind (`u32`), callsite (`u32`), then the variant payload.
No `sizeof(entry)` and no padding is written. -/
def rr_write_item (e : RR_log_entry) : List Nat :=
  bytesLE 8 e.prog_point.guest_instr_count ++ bytesLE 8 e.prog_point.pc ++
  bytesLE 8 e.prog_point.secondary ++ bytesLE 4 (kindCode e.kind) ++
  bytesLE 4 e.callsite_loc ++
  match e.variant with
  | .input_1 v => bytesLE 1 v
  | .input_2 v => bytesLE 2 v
  | .input_4 v => bytesLE 4 v
  | .input_8 v => bytesLE 8 v
  | .interrupt_request v => bytesLE 4 v
  | .exit_request v => bytesLE 4 v
  | .skipped_call args => rr_write_skipped_call args
  | .rdebug => []
  | .rlast => []

/-! ## Decoder: `rr_read_item` -/

/-- Decode the skipped-call portion: sub-kind, args struct, tail buffer.  The
`default` branch of the C switch is the fatal `rr_assert(0 && "Unimplemented
skipped call!")`, modelled as `none`.  For `mem_region_change` the C decoder
allocates `len + 1` zeroed bytes for the name (C-string termination); the name
content is the `len` bytes read. -/
def rr_read_skipped_call (bs : List Nat) : Option (RR_skipped_call_args × List Nat) := do
  let (code, bs) ← readLE 4 bs
  if code = 0 then do
    let (addr, bs) ← readLE 8 bs
    let (len, bs) ← readLE 4 bs
    let (buf, bs) ← readBytes len bs
    pure (.cpu_mem_rw addr buf, bs)
  else if code = 1 then do
    let (addr, bs) ← readLE 8 bs
    let (len, bs) ← readLE 8 bs
    let (buf, bs) ← readBytes len bs
    pure (.cpu_mem_unmap addr buf, bs)
  else if code = 2 then do
    let (start_addr, bs) ← readLE 8 bs
    let (size, bs) ← readLE 8 bs
    let (len, bs) ← readLE 4 bs
    let (mtype, bs) ← readLE 4 bs
    let (added, bs) ← readLE 1 bs
    let (name, bs) ← readBytes len bs
    pure (.mem_region_change start_addr size mtype (added ≠ 0) name, bs)
  else if code = 3 then do
    let (ttype, bs) ← readLE 4 bs
    let (src_addr, bs) ← readLE 8 bs
    let (dest_addr, bs) ← readLE 8 bs
    let (num_bytes, bs) ← readLE 4 bs
    pure (.hd_transfer ttype src_addr dest_addr num_bytes, bs)
  else if code = 4 then do
    let (ttype, bs) ← readLE 4 bs
    let (src_addr, bs) ← readLE 8 bs
    let (dest_addr, bs) ← readLE 8 bs
    let (num_bytes, bs) ← readLE 4 bs
    pure (.net_transfer ttype src_addr dest_addr num_bytes, bs)
  else if code = 5 then do
    let (old_buf_addr, bs) ← readLE 8 bs
    let (size, bs) ← readLE 4 bs
    let (direction, bs) ← readLE 1 bs
    let (buf, bs) ← readBytes size bs
    pure (.handle_packet old_buf_addr direction buf, bs)
  else none

/-- `rr_read_item`: read the header fields individually (program point, kind,
callsite), then dispatch on the kind to read the variant payload and any tail.
The `default` branch of the C switch (`rr_assert(0 && "Unimplemented replay
log entry!")`) is `none`.  Statistics counters and `file_pos` bookkeeping are
diagnostics and are not modelled. -/
def rr_read_item (bs : List Nat) : Option (RR_log_entry × List Nat) := do
  let (gic, bs) ← readLE 8 bs
  let (pc, bs) ← readLE 8 bs
  let (sec, bs) ← readLE 8 bs
  let (kcode, bs) ← readLE 4 bs
  let (cs, bs) ← readLE 4 bs
  let pp : RR_prog_point := ⟨gic, pc, sec⟩
  if kcode = 0 then do
    let (v, bs) ← readLE 1 bs
    pure (⟨pp, cs, .input_1 v⟩, bs)
  else if kcode = 1 then do
    let (v, bs) ← readLE 2 bs
    pure (⟨pp, cs, .input_2 v⟩, bs)
  else if kcode = 2 then do
    let (v, bs) ← readLE 4 bs
    pure (⟨pp, cs, .input_4 v⟩, bs)
  else if kcode = 3 then do
    let (v, bs) ← readLE 8 bs
    pure (⟨pp, cs, .input_8 v⟩, bs)
  else if kcode = 4 then do
    let (v, bs) ← readLE 4 bs
    pure (⟨pp, cs, .interrupt_request v⟩, bs)
  else if kcode = 5 then do
    let (v, bs) ← readLE 4 bs
    pure (⟨pp, cs, .exit_request v⟩, bs)
  else if kcode = 6 then do
    let (args, bs) ← rr_read_skipped_call bs
    pure (⟨pp, cs, .skipped_call args⟩, bs)
  else if kcode = 7 then pure (⟨pp, cs, .rdebug⟩, bs)
  else if kcode = 8 then pure (⟨pp, cs, .rlast⟩, bs)
  else none

/-! ## Well-formedness: the C integer-type bounds of each field -/

/-- All buffer elements are byte values (`uint8_t`). -/
def wf_buf (buf : List Nat) : Bool := buf.all (· < 256)

/-- Field bounds of a skipped call, matching the C types: `hwaddr`/`u64`
addresses, `int`/`u32` lengths (buffer length fields fit their stored width),
byte-valued buffers. -/
def wf_skipped : RR_skipped_call_args → Bool
  | .cpu_mem_rw addr buf =>
      decide (addr < 256 ^ 8) && decide (buf.length < 256 ^ 4) && wf_buf buf
  | .cpu_mem_unmap addr buf =>
      decide (addr < 256 ^ 8) && decide (buf.length < 256 ^ 8) && wf_buf buf
  | .mem_region_change start_addr size mtype _ name =>
      decide (start_addr < 256 ^ 8) && decide (size < 256 ^ 8) &&
      decide (name.length < 256 ^ 4) && decide (mtype < 256 ^ 4) && wf_buf name
  | .hd_transfer ttype src_addr dest_addr num_bytes =>
      decide (ttype < 256 ^ 4) && decide (src_addr < 256 ^ 8) &&
      decide (dest_addr < 256 ^ 8) && decide (num_bytes < 256 ^ 4)
  | .net_transfer ttype src_addr dest_addr num_bytes =>
      decide (ttype < 256 ^ 4) && decide (src_addr < 256 ^ 8) &&
      decide (dest_addr < 256 ^ 8) && decide (num_bytes < 256 ^ 4)
  | .handle_packet old_buf_addr direction buf =>
      decide (old_buf_addr < 256 ^ 8) && decide (direction < 256) &&
      decide (buf.length < 256 ^ 4) && wf_buf buf

/-- Field bounds of a variant payload. -/
def wf_variant : RR_variant → Bool
  | .input_1 v => decide (v < 256)
  | .input_2 v => decide (v < 256 ^ 2)
  | .input_4 v => decide (v < 256 ^ 4)
  | .input_8 v => decide (v < 256 ^ 8)
  | .interrupt_request v => decide (v < 256 ^ 4)
  | .exit_request v => decide (v < 256 ^ 4)
  | .skipped_call args => wf_skipped args
  | .rdebug => true
  | .rlast => true

/-- Field bounds of a whole entry: `u64` program point fields, `u32` callsite,
plus the variant bounds. -/
def wf_entry (e : RR_log_entry) : Bool :=
  decide (e.prog_point.guest_instr_count < 256 ^ 8) &&
  decide (e.prog_point.pc < 256 ^ 8) && decide (e.prog_point.secondary < 256 ^ 8) &&
  decide (e.callsite_loc < 256 ^ 4) && wf_variant e.variant

/-! ## Codec round-trip -/

theorem rr_write_item_ne_nil (e : RR_log_entry) : rr_write_item e ≠ [] := by
  simp [rr_write_item, bytesLE]

theorem bind_readLE {α : Type} (n v : Nat) (rest : List Nat) (h : v < 256 ^ n)
    (f : Nat × List Nat → Option α) :
    (readLE n (bytesLE n v ++ rest)).bind f = f (v, rest) := by
  rw [readLE_bytesLE n v rest h]
  rfl

theorem bind_readBytes {α : Type} (buf rest : List Nat)
    (f : List Nat × List Nat → Option α) :
    (readBytes buf.length (buf ++ rest)).bind f = f (buf, rest) := by
  rw [readBytes_append]
  rfl

/-- Decoding a well-formed skipped call's bytes recovers it exactly. -/
theorem rr_read_skipped_call_write (args : RR_skipped_call_args) (rest : List Nat)
    (h : wf_skipped args = true) :
    rr_read_skipped_call (rr_write_skipped_call args ++ rest) = some (args, rest) := by
  cases args with
  | cpu_mem_rw addr buf =>
    simp only [wf_skipped, Bool.and_eq_true, decide_eq_true_eq] at h
    obtain ⟨⟨ha, hl⟩, -⟩ := h
    simp only [rr_write_skipped_call, skippedCallKindCode, rr_read_skipped_call,
      List.append_assoc, List.nil_append, Option.bind_eq_bind]
    rw [bind_readLE 4 0 _ (by norm_num)]
    simp only [show ((0:Nat) = 0) = True from by norm_num, if_true, if_false]
    rw [bind_readLE 8 addr _ ha, bind_readLE 4 buf.length _ hl, bind_readBytes]
    rfl
  | cpu_mem_unmap addr buf =>
    simp only [wf_skipped, Bool.and_eq_true, decide_eq_true_eq] at h
    obtain ⟨⟨ha, hl⟩, -⟩ := h
    simp only [rr_write_skipped_call, skippedCallKindCode, rr_read_skipped_call,
      List.append_assoc, List.nil_append, Option.bind_eq_bind]
    rw [bind_readLE 4 1 _ (by norm_num)]
    simp only [show ((1:Nat) = 0) = False from by norm_num,
      show ((1:Nat) = 1) = True from by norm_num, if_true, if_false]
    rw [bind_readLE 8 addr _ ha, bind_readLE 8 buf.length _ hl, bind_readBytes]
    rfl
  | mem_region_change start_addr size mtype added name =>
    simp only [wf_skipped, Bool.and_eq_true, decide_eq_true_eq] at h
    obtain ⟨⟨⟨⟨hs, hz⟩, hl⟩, hm⟩, -⟩ := h
    simp only [rr_write_skipped_call, skippedCallKindCode, rr_read_skipped_call,
      List.append_assoc, List.nil_append, Option.bind_eq_bind]
    rw [bind_readLE 4 2 _ (by norm_num)]
    simp only [show ((2:Nat) = 0) = False from by norm_num,
      show ((2:Nat) = 1) = False from by norm_num,
      show ((2:Nat) = 2) = True from by norm_num, if_true, if_false]
    rw [bind_readLE 8 start_addr _ hs, bind_readLE 8 size _ hz,
      bind_readLE 4 name.length _ hl, bind_readLE 4 mtype _ hm,
      bind_readLE 1 (if added then 1 else 0) _ (by cases added <;> norm_num),
      bind_readBytes]
    cases added <;> rfl
  | hd_transfer ttype src_addr dest_addr num_bytes =>
    simp only [wf_skipped, Bool.and_eq_true, decide_eq_true_eq] at h
    obtain ⟨⟨⟨ht, hs⟩, hd⟩, hn⟩ := h
    simp only [rr_write_skipped_call, skippedCallKindCode, rr_read_skipped_call,
      List.append_assoc, List.nil_append, Option.bind_eq_bind]
    rw [bind_readLE 4 3 _ (by norm_num)]
    simp only [show ((3:Nat) = 0) = False from by norm_num,
      show ((3:Nat) = 1) = False from by norm_num,
      show ((3:Nat) = 2) = False from by norm_num,
      show ((3:Nat) = 3) = True from by norm_num, if_true, if_false]
    rw [bind_readLE 4 ttype _ ht, bind_readLE 8 src_addr _ hs,
      bind_readLE 8 dest_addr _ hd, bind_readLE 4 num_bytes _ hn]
    rfl
  | net_transfer ttype src_addr dest_addr num_bytes =>
    simp only [wf_skipped, Bool.and_eq_true, decide_eq_true_eq] at h
    obtain ⟨⟨⟨ht, hs⟩, hd⟩, hn⟩ := h
    simp only [rr_write_skipped_call, skippedCallKindCode, rr_read_skipped_call,
      List.append_assoc, List.nil_append, Option.bind_eq_bind]
    rw [bind_readLE 4 4 _ (by norm_num)]
    simp only [show ((4:Nat) = 0) = False from by norm_num,
      show ((4:Nat) = 1) = False from by norm_num,
      show ((4:Nat) = 2) = False from by norm_num,
      show ((4:Nat) = 3) = False from by norm_num,
      show ((4:Nat) = 4) = True from by norm_num, if_true, if_false]
    rw [bind_readLE 4 ttype _ ht, bind_readLE 8 src_addr _ hs,
      bind_readLE 8 dest_addr _ hd, bind_readLE 4 num_bytes _ hn]
    rfl
  | handle_packet old_buf_addr direction buf =>
    simp only [wf_skipped, Bool.and_eq_true, decide_eq_true_eq] at h
    obtain ⟨⟨⟨hp, hd⟩, hl⟩, -⟩ := h
    simp only [rr_write_skipped_call, skippedCallKindCode, rr_read_skipped_call,
      List.append_assoc, List.nil_append, Option.bind_eq_bind]
    rw [bind_readLE 4 5 _ (by norm_num)]
    simp only [show ((5:Nat) = 0) = False from by norm_num,
      show ((5:Nat) = 1) = False from by norm_num,
      show ((5:Nat) = 2) = False from by norm_num,
      show ((5:Nat) = 3) = False from by norm_num,
      show ((5:Nat) = 4) = False from by norm_num,
      show ((5:Nat) = 5) = True from by norm_num, if_true, if_false]
    rw [bind_readLE 8 old_buf_addr _ hp, bind_readLE 4 buf.length _ hl,
      bind_readLE 1 direction _ (by rw [pow_one]; exact hd), bind_readBytes]
    rfl

theorem bind_read_skipped_call {α : Type} (args : RR_skipped_call_args)
    (rest : List Nat) (h : wf_skipped args = true)
    (f : RR_skipped_call_args × List Nat → Option α) :
    (rr_read_skipped_call (rr_write_skipped_call args ++ rest)).bind f =
      f (args, rest) := by
  rw [rr_read_skipped_call_write args rest h]
  rfl

/-- Decoding a well-formed entry's bytes recovers it exactly: `rr_read_item`
inverts `rr_write_item` and consumes exactly the written bytes. -/
theorem rr_read_item_write_item (e : RR_log_entry) (rest : List Nat)
    (h : wf_entry e = true) :
    rr_read_item (rr_write_item e ++ rest) = some (e, rest) := by
  obtain ⟨⟨gic, pc, sec⟩, cs, variant⟩ := e
  simp only [wf_entry, Bool.and_eq_true, decide_eq_true_eq] at h
  obtain ⟨⟨⟨⟨hg, hp⟩, hsec⟩, hcs⟩, hv⟩ := h
  cases variant with
  | input_1 v =>
    simp only [wf_variant, decide_eq_true_eq] at hv
    simp only [rr_write_item, RR_log_entry.kind, kindCode, rr_read_item,
      List.append_assoc, List.nil_append, Option.bind_eq_bind]
    rw [bind_readLE 8 gic _ hg, bind_readLE 8 pc _ hp, bind_readLE 8 sec _ hsec,
      bind_readLE 4 0 _ (by norm_num), bind_readLE 4 cs _ hcs]
    simp only [show ((0:Nat) = 0) = True from by norm_num, if_true, if_false]
    rw [bind_readLE 1 v _ (by rw [pow_one]; exact hv)]
    rfl
  | input_2 v =>
    simp only [wf_variant, decide_eq_true_eq] at hv
    simp only [rr_write_item, RR_log_entry.kind, kindCode, rr_read_item,
      List.append_assoc, List.nil_append, Option.bind_eq_bind]
    rw [bind_readLE 8 gic _ hg, bind_readLE 8 pc _ hp, bind_readLE 8 sec _ hsec,
      bind_readLE 4 1 _ (by norm_num), bind_readLE 4 cs _ hcs]
    simp only [show ((1:Nat) = 0) = False from by norm_num,
      show ((1:Nat) = 1) = True from by norm_num, if_true, if_false]
    rw [bind_readLE 2 v _ hv]
    rfl
  | input_4 v =>
    simp only [wf_variant, decide_eq_true_eq] at hv
    simp only [rr_write_item, RR_log_entry.kind, kindCode, rr_read_item,
      List.append_assoc, List.nil_append, Option.bind_eq_bind]
    rw [bind_readLE 8 gic _ hg, bind_readLE 8 pc _ hp, bind_readLE 8 sec _ hsec,
      bind_readLE 4 2 _ (by norm_num), bind_readLE 4 cs _ hcs]
    simp only [show ((2:Nat) = 0) = False from by norm_num,
      show ((2:Nat) = 1) = False from by norm_num,
      show ((2:Nat) = 2) = True from by norm_num, if_true, if_false]
    rw [bind_readLE 4 v _ hv]
    rfl
  | input_8 v =>
    simp only [wf_variant, decide_eq_true_eq] at hv
    simp only [rr_write_item, RR_log_entry.kind, kindCode, rr_read_item,
      List.append_assoc, List.nil_append, Option.bind_eq_bind]
    rw [bind_readLE 8 gic _ hg, bind_readLE 8 pc _ hp, bind_readLE 8 sec _ hsec,
      bind_readLE 4 3 _ (by norm_num), bind_readLE 4 cs _ hcs]
    simp only [show ((3:Nat) = 0) = False from by norm_num,
      show ((3:Nat) = 1) = False from by norm_num,
      show ((3:Nat) = 2) = False from by norm_num,
      show ((3:Nat) = 3) = True from by norm_num, if_true, if_false]
    rw [bind_readLE 8 v _ hv]
    rfl
  | interrupt_request v =>
    simp only [wf_variant, decide_eq_true_eq] at hv
    simp only [rr_write_item, RR_log_entry.kind, kindCode, rr_read_item,
      List.append_assoc, List.nil_append, Option.bind_eq_bind]
    rw [bind_readLE 8 gic _ hg, bind_readLE 8 pc _ hp, bind_readLE 8 sec _ hsec,
      bind_readLE 4 4 _ (by norm_num), bind_readLE 4 cs _ hcs]
    simp only [show ((4:Nat) = 0) = False from by norm_num,
      show ((4:Nat) = 1) = False from by norm_num,
      show ((4:Nat) = 2) = False from by norm_num,
      show ((4:Nat) = 3) = False from by norm_num,
      show ((4:Nat) = 4) = True from by norm_num, if_true, if_false]
    rw [bind_readLE 4 v _ hv]
    rfl
  | exit_request v =>
    simp only [wf_variant, decide_eq_true_eq] at hv
    simp only [rr_write_item, RR_log_entry.kind, kindCode, rr_read_item,
      List.append_assoc, List.nil_append, Option.bind_eq_bind]
    rw [bind_readLE 8 gic _ hg, bind_readLE 8 pc _ hp, bind_readLE 8 sec _ hsec,
      bind_readLE 4 5 _ (by norm_num), bind_readLE 4 cs _ hcs]
    simp only [show ((5:Nat) = 0) = False from by norm_num,
      show ((5:Nat) = 1) = False from by norm_num,
      show ((5:Nat) = 2) = False from by norm_num,
      show ((5:Nat) = 3) = False from by norm_num,
      show ((5:Nat) = 4) = False from by norm_num,
      show ((5:Nat) = 5) = True from by norm_num, if_true, if_false]
    rw [bind_readLE 4 v _ hv]
    rfl
  | skipped_call args =>
    simp only [wf_variant] at hv
    simp only [rr_write_item, RR_log_entry.kind, kindCode, rr_read_item,
      List.append_assoc, List.nil_append, Option.bind_eq_bind]
    rw [bind_readLE 8 gic _ hg, bind_readLE 8 pc _ hp, bind_readLE 8 sec _ hsec,
      bind_readLE 4 6 _ (by norm_num), bind_readLE 4 cs _ hcs]
    simp only [show ((6:Nat) = 0) = False from by norm_num,
      show ((6:Nat) = 1) = False from by norm_num,
      show ((6:Nat) = 2) = False from by norm_num,
      show ((6:Nat) = 3) = False from by norm_num,
      show ((6:Nat) = 4) = False from by norm_num,
      show ((6:Nat) = 5) = False from by norm_num,
      show ((6:Nat) = 6) = True from by norm_num, if_true, if_false]
    rw [bind_read_skipped_call args rest hv]
    rfl
  | rdebug =>
    simp only [rr_write_item, RR_log_entry.kind, kindCode, rr_read_item,
      List.append_assoc, List.nil_append, List.append_nil, Option.bind_eq_bind]
    rw [bind_readLE 8 gic _ hg, bind_readLE 8 pc _ hp, bind_readLE 8 sec _ hsec,
      bind_readLE 4 7 _ (by norm_num), bind_readLE 4 cs _ hcs]
    simp only [show ((7:Nat) = 0) = False from by norm_num,
      show ((7:Nat) = 1) = False from by norm_num,
      show ((7:Nat) = 2) = False from by norm_num,
      show ((7:Nat) = 3) = False from by norm_num,
      show ((7:Nat) = 4) = False from by norm_num,
      show ((7:Nat) = 5) = False from by norm_num,
      show ((7:Nat) = 6) = False from by norm_num,
      show ((7:Nat) = 7) = True from by norm_num, if_true, if_false]
    rfl
  | rlast =>
    simp only [rr_write_item, RR_log_entry.kind, kindCode, rr_read_item,
      List.append_assoc, List.nil_append, List.append_nil, Option.bind_eq_bind]
    rw [bind_readLE 8 gic _ hg, bind_readLE 8 pc _ hp, bind_readLE 8 sec _ hsec,
      bind_readLE 4 8 _ (by norm_num), bind_readLE 4 cs _ hcs]
    simp only [show ((8:Nat) = 0) = False from by norm_num,
      show ((8:Nat) = 1) = False from by norm_num,
      show ((8:Nat) = 2) = False from by norm_num,
      show ((8:Nat) = 3) = False from by norm_num,
      show ((8:Nat) = 4) = False from by norm_num,
      show ((8:Nat) = 5) = False from by norm_num,
      show ((8:Nat) = 6) = False from by norm_num,
      show ((8:Nat) = 7) = False from by norm_num,
      show ((8:Nat) = 8) = True from by norm_num, if_true, if_false]
    rfl

/-! ## Reading a whole log -/

/-- The byte stream produced by serializing a sequence of entries in order
(each one through `rr_write_item`). -/
def rr_write_log : List RR_log_entry → List Nat
  | [] => []
  | e :: es => rr_write_item e ++ rr_write_log es

/-- Run `rr_read_item` repeatedly until the log bytes are exhausted
(`rr_log_is_empty`, i.e. `bytes_read == size`).  The fuel argument only
bounds recursion; `rr_read_log` supplies enough fuel for any input since
every entry occupies at least one byte. -/
def rr_read_log_aux : Nat → List Nat → Option (List RR_log_entry)
  | _, [] => some []
  | 0, _ :: _ => none
  | fuel + 1, b :: bs =>
    match rr_read_item (b :: bs) with
    | none => none
    | some (e, rest) => (rr_read_log_aux fuel rest).map (e :: ·)

/-- Decode an entire byte log into the sequence of entries it holds. -/
def rr_read_log (bs : List Nat) : Option (List RR_log_entry) :=
  rr_read_log_aux bs.length bs

theorem rr_read_log_aux_write_log (S : List RR_log_entry) :
    ∀ fuel : Nat, (∀ e ∈ S, wf_entry e = true) →
      (rr_write_log S).length ≤ fuel →
      rr_read_log_aux fuel (rr_write_log S) = some S := by
  induction S with
  | nil => intro fuel _ _; cases fuel <;> rfl
  | cons e es ih =>
    intro fuel hwf hlen
    have hwfe : wf_entry e = true := hwf e (by simp)
    have hround := rr_read_item_write_item e (rr_write_log es) hwfe
    cases hW : rr_write_item e with
    | nil => exact absurd hW (rr_write_item_ne_nil e)
    | cons b bs =>
      have hbytes : rr_write_log (e :: es) = b :: (bs ++ rr_write_log es) := by
        show rr_write_item e ++ rr_write_log es = _
        rw [hW]; rfl
      rw [hbytes]
      cases fuel with
      | zero =>
        exfalso
        rw [hbytes] at hlen
        simp at hlen
      | succ f =>
        have hstep : rr_read_item (b :: (bs ++ rr_write_log es)) =
            some (e, rr_write_log es) := by
          rw [show b :: (bs ++ rr_write_log es) =
            rr_write_item e ++ rr_write_log es from by rw [hW]; rfl]
          exact hround
        simp only [rr_read_log_aux, hstep]
        have hlen2 : (rr_write_log es).length ≤ f := by
          rw [hbytes] at hlen
          simp only [List.length_cons, List.length_append] at hlen
          omega
        rw [ih f (fun x hx => hwf x (by simp [hx])) hlen2]
        rfl

/-- Decoding the serialization of any well-formed entry sequence recovers the
sequence exactly, in order. -/
theorem rr_read_log_write_log (S : List RR_log_entry)
    (hwf : ∀ e ∈ S, wf_entry e = true) :
    rr_read_log (rr_write_log S) = some S :=
  rr_read_log_aux_write_log S (rr_write_log S).length hwf le_rfl

/-! ## Record side: state and capture functions -/

/-- `rr_mode` values. -/
inductive RR_mode where
  | RR_OFF
  | RR_RECORD
  | RR_REPLAY
deriving DecidableEq, Repr

/-- The process globals the record side touches: `rr_mode`, the open log
(`rr_nondet_log`: written entries, the header program point at the start of
the file, `last_prog_point`, `item_number`), the compaction cache
`panda_current_interrupt_request`, and the flags touched by `rr_reset_state`
(`rr_record_in_progress`, `rr_skipped_callsite_location`,
`cpu_state->rr_guest_instr_count`, `rr_please_flush_tb`).  The log file's
contents are `rr_write_log log` after the 24-byte header. -/
structure RecordState where
  mode : RR_mode
  log : List RR_log_entry
  header : RR_prog_point
  last_prog_point : RR_prog_point
  item_number : Nat
  interrupt_cache : Nat
  record_in_progress : Nat
  skipped_callsite_location : Nat
  guest_instr_count : Nat
  please_flush_tb : Nat
deriving DecidableEq, Repr

/-- `rr_in_record()` (from the header: `rr_mode == RR_RECORD`). -/
def rr_in_record (s : RecordState) : Bool := s.mode = RR_mode.RR_RECORD

/-- The state effects of `rr_write_item`: assert record mode (`none` on
failure), append the current item's bytes to the file (tracked as the entry
list `log`), update `last_prog_point` to the item's program point, and bump
`item_number`. -/
def rr_write_item_state (s : RecordState) (item : RR_log_entry) :
    Option RecordState :=
  if rr_in_record s then
    some { s with
      log := s.log ++ [item]
      last_prog_point := item.prog_point
      item_number := s.item_number + 1 }
  else none

/-- `rr_record_debug`: fill a `RR_DEBUG` item and write it.  The program
point argument models the external `rr_prog_point()`. -/
def rr_record_debug (s : RecordState) (call_site : Nat) (pp : RR_prog_point) :
    Option RecordState :=
  rr_write_item_state s ⟨pp, call_site, .rdebug⟩

/-- `rr_record_input_1`. -/
def rr_record_input_1 (s : RecordState) (call_site : Nat) (pp : RR_prog_point)
    (data : Nat) : Option RecordState :=
  rr_write_item_state s ⟨pp, call_site, .input_1 data⟩

/-- `rr_record_input_2`. -/
def rr_record_input_2 (s : RecordState) (call_site : Nat) (pp : RR_prog_point)
    (data : Nat) : Option RecordState :=
  rr_write_item_state s ⟨pp, call_site, .input_2 data⟩

/-- `rr_record_input_4`. -/
def rr_record_input_4 (s : RecordState) (call_site : Nat) (pp : RR_prog_point)
    (data : Nat) : Option RecordState :=
  rr_write_item_state s ⟨pp, call_site, .input_4 data⟩

/-- `rr_record_input_8`. -/
def rr_record_input_8 (s : RecordState) (call_site : Nat) (pp : RR_prog_point)
    (data : Nat) : Option RecordState :=
  rr_write_item_state s ⟨pp, call_site, .input_8 data⟩

/-- `rr_record_interrupt_request`: compare the observed word with
`panda_current_interrupt_request`; when different, build the item, update the
cache, and write; when equal, do nothing (the mode is not even checked in
that branch). -/
def rr_record_interrupt_request (s : RecordState) (call_site : Nat)
    (pp : RR_prog_point) (interrupt_request : Nat) : Option RecordState :=
  if s.interrupt_cache ≠ interrupt_request then
    rr_write_item_state { s with interrupt_cache := interrupt_request }
      ⟨pp, call_site, .interrupt_request interrupt_request⟩
  else some s

/-- `rr_record_exit_request`: write only when the value is nonzero. -/
def rr_record_exit_request (s : RecordState) (call_site : Nat)
    (pp : RR_prog_point) (exit_request : Nat) : Option RecordState :=
  if exit_request ≠ 0 then
    rr_write_item_state s ⟨pp, call_site, .exit_request exit_request⟩
  else some s

/-- `rr_record_cpu_mem_rw_call` (only writes are recorded; `len` is
`buf.length`, the bytes the C code serializes from the host pointer). -/
def rr_record_cpu_mem_rw_call (s : RecordState) (call_site : Nat)
    (pp : RR_prog_point) (addr : Nat) (buf : List Nat) : Option RecordState :=
  rr_write_item_state s ⟨pp, call_site, .skipped_call (.cpu_mem_rw addr buf)⟩

/-- `rr_record_cpu_mem_unmap`. -/
def rr_record_cpu_mem_unmap (s : RecordState) (call_site : Nat)
    (pp : RR_prog_point) (addr : Nat) (buf : List Nat) : Option RecordState :=
  rr_write_item_state s ⟨pp, call_site, .skipped_call (.cpu_mem_unmap addr buf)⟩

/-- `rr_record_memory_region_change` (`len` is `strlen(name)`, i.e. the
length of the name byte list). -/
def rr_record_memory_region_change (s : RecordState) (call_site : Nat)
    (pp : RR_prog_point) (start_addr : Nat) (size : Nat) (name : List Nat)
    (mtype : Nat) (added : Bool) : Option RecordState :=
  rr_write_item_state s
    ⟨pp, call_site, .skipped_call (.mem_region_change start_addr size mtype added name)⟩

/-- `rr_record_hd_transfer`. -/
def rr_record_hd_transfer (s : RecordState) (call_site : Nat)
    (pp : RR_prog_point) (transfer_type : Nat) (src_addr : Nat)
    (dest_addr : Nat) (num_bytes : Nat) : Option RecordState :=
  rr_write_item_state s
    ⟨pp, call_site, .skipped_call (.hd_transfer transfer_type src_addr dest_addr num_bytes)⟩

/-- `rr_record_net_transfer`. -/
def rr_record_net_transfer (s : RecordState) (call_site : Nat)
    (pp : RR_prog_point) (transfer_type : Nat) (src_addr : Nat)
    (dest_addr : Nat) (num_bytes : Nat) : Option RecordState :=
  rr_write_item_state s
    ⟨pp, call_site, .skipped_call (.net_transfer transfer_type src_addr dest_addr num_bytes)⟩

/-- `rr_record_handle_packet_call` (`buf_ptr` is the host pointer value the C
code stores in the entry's `buf` field and serializes; `size` is
`buf.length`). -/
def rr_record_handle_packet_call (s : RecordState) (call_site : Nat)
    (pp : RR_prog_point) (buf_ptr : Nat) (buf : List Nat) (direction : Nat) :
    Option RecordState :=
  rr_write_item_state s
    ⟨pp, call_site, .skipped_call (.handle_packet buf_ptr direction buf)⟩

/-- `rr_record_end_of_log`: write the `RR_LAST` marker at the current program
point with callsite `RR_CALLSITE_LAST`. -/
def rr_record_end_of_log (s : RecordState) (pp : RR_prog_point) :
    Option RecordState :=
  rr_write_item_state s ⟨pp, RR_CALLSITE_LAST, .rlast⟩

/-! ## Session controller (record side) -/

/-- `rr_reset_state`: request a TB flush, clear `rr_record_in_progress`,
`rr_skipped_callsite_location`, and the guest instruction count.  (It does not
touch `panda_current_interrupt_request`.) -/
def rr_reset_state (s : RecordState) : RecordState :=
  { s with
    please_flush_tb := 1
    record_in_progress := 0
    skipped_callsite_location := 0
    guest_instr_count := 0 }

/-- `rr_create_record_log`: allocate a zeroed `RR_log` of type `RECORD`, open
the file, and write the (still zero) `last_prog_point` as the header. -/
def rr_create_record_log (s : RecordState) : RecordState :=
  { s with
    log := []
    header := ⟨0, 0, 0⟩
    last_prog_point := ⟨0, 0, 0⟩
    item_number := 0 }

/-- The state effects of `rr_do_begin_record`: create the record log, reset
the counters and flags, and set `rr_mode = RR_RECORD`.  (Snapshot handling is
out of scope: it touches no state of this subsystem.) -/
def rr_do_begin_record (s : RecordState) : RecordState :=
  { rr_reset_state (rr_create_record_log s) with mode := RR_mode.RR_RECORD }

/-- `rr_destroy_log` on a record-mode log: rewind and rewrite the header with
the final `last_prog_point`, then close.  (On a replay log the header is left
alone; this definition is used on the record side where `type == RECORD`.) -/
def rr_destroy_log (s : RecordState) : RecordState :=
  { s with header := s.last_prog_point }

/-- `rr_do_end_record`: write the `RR_LAST` end-of-log marker (at the current
program point `pp`), destroy the log (rewriting the header), and turn
recording off. -/
def rr_do_end_record (s : RecordState) (pp : RR_prog_point) :
    Option RecordState :=
  match rr_record_end_of_log s pp with
  | none => none
  | some s1 => some { rr_destroy_log s1 with mode := RR_mode.RR_OFF }

/-- The zero-initialized globals at process start: mode `RR_OFF`, no log,
`panda_current_interrupt_request = 0`. -/
def process_init : RecordState :=
  { mode := RR_mode.RR_OFF
    log := []
    header := ⟨0, 0, 0⟩
    last_prog_point := ⟨0, 0, 0⟩
    item_number := 0
    interrupt_cache := 0
    record_in_progress := 0
    skipped_callsite_location := 0
    guest_instr_count := 0
    please_flush_tb := 0 }

/-! ## Sequences of capture calls -/

/-- One typed `record_*` call with its arguments (the program point argument
models the external clock `rr_prog_point()` at the time of the call). -/
inductive RecordOp where
  | debug (call_site : Nat) (pp : RR_prog_point)
  | input_1 (call_site : Nat) (pp : RR_prog_point) (data : Nat)
  | input_2 (call_site : Nat) (pp : RR_prog_point) (data : Nat)
  | input_4 (call_site : Nat) (pp : RR_prog_point) (data : Nat)
  | input_8 (call_site : Nat) (pp : RR_prog_point) (data : Nat)
  | interrupt_request (call_site : Nat) (pp : RR_prog_point) (v : Nat)
  | exit_request (call_site : Nat) (pp : RR_prog_point) (v : Nat)
  | cpu_mem_rw (call_site : Nat) (pp : RR_prog_point) (addr : Nat) (buf : List Nat)
  | cpu_mem_unmap (call_site : Nat) (pp : RR_prog_point) (addr : Nat) (buf : List Nat)
  | mem_region_change (call_site : Nat) (pp : RR_prog_point) (start_addr : Nat)
      (size : Nat) (name : List Nat) (mtype : Nat) (added : Bool)
  | hd_transfer (call_site : Nat) (pp : RR_prog_point) (ttype : Nat)
      (src_addr : Nat) (dest_addr : Nat) (num_bytes : Nat)
  | net_transfer (call_site : Nat) (pp : RR_prog_point) (ttype : Nat)
      (src_addr : Nat) (dest_addr : Nat) (num_bytes : Nat)
  | handle_packet (call_site : Nat) (pp : RR_prog_point) (buf_ptr : Nat)
      (buf : List Nat) (direction : Nat)
deriving DecidableEq, Repr

/-- Dispatch one capture call to the corresponding `rr_record_*` function. -/
def rr_record_step (s : RecordState) : RecordOp → Option RecordState
  | .debug cs pp => rr_record_debug s cs pp
  | .input_1 cs pp v => rr_record_input_1 s cs pp v
  | .input_2 cs pp v => rr_record_input_2 s cs pp v
  | .input_4 cs pp v => rr_record_input_4 s cs pp v
  | .input_8 cs pp v => rr_record_input_8 s cs pp v
  | .interrupt_request cs pp v => rr_record_interrupt_request s cs pp v
  | .exit_request cs pp v => rr_record_exit_request s cs pp v
  | .cpu_mem_rw cs pp addr buf => rr_record_cpu_mem_rw_call s cs pp addr buf
  | .cpu_mem_unmap cs pp addr buf => rr_record_cpu_mem_unmap s cs pp addr buf
  | .mem_region_change cs pp st sz name mt added =>
      rr_record_memory_region_change s cs pp st sz name mt added
  | .hd_transfer cs pp t src dst n => rr_record_hd_transfer s cs pp t src dst n
  | .net_transfer cs pp t src dst n => rr_record_net_transfer s cs pp t src dst n
  | .handle_packet cs pp p buf d => rr_record_handle_packet_call s cs pp p buf d

/-- Run a sequence of capture calls in order (`none` as soon as one hits a
fatal assertion). -/
def runRecord : List RecordOp → RecordState → Option RecordState
  | [], s => some s
  | op :: ops, s =>
    match rr_record_step s op with
    | none => none
    | some s1 => runRecord ops s1

/-- The entry a capture call fills into `rr_nondet_log->current_item`. -/
def op_entry : RecordOp → RR_log_entry
  | .debug cs pp => ⟨pp, cs, .rdebug⟩
  | .input_1 cs pp v => ⟨pp, cs, .input_1 v⟩
  | .input_2 cs pp v => ⟨pp, cs, .input_2 v⟩
  | .input_4 cs pp v => ⟨pp, cs, .input_4 v⟩
  | .input_8 cs pp v => ⟨pp, cs, .input_8 v⟩
  | .interrupt_request cs pp v => ⟨pp, cs, .interrupt_request v⟩
  | .exit_request cs pp v => ⟨pp, cs, .exit_request v⟩
  | .cpu_mem_rw cs pp addr buf => ⟨pp, cs, .skipped_call (.cpu_mem_rw addr buf)⟩
  | .cpu_mem_unmap cs pp addr buf => ⟨pp, cs, .skipped_call (.cpu_mem_unmap addr buf)⟩
  | .mem_region_change cs pp st sz name mt added =>
      ⟨pp, cs, .skipped_call (.mem_region_change st sz mt added name)⟩
  | .hd_transfer cs pp t src dst n => ⟨pp, cs, .skipped_call (.hd_transfer t src dst n)⟩
  | .net_transfer cs pp t src dst n => ⟨pp, cs, .skipped_call (.net_transfer t src dst n)⟩
  | .handle_packet cs pp p buf d => ⟨pp, cs, .skipped_call (.handle_packet p d buf)⟩

/-- A capture call is well formed when the entry it fills is (its arguments
fit their C types). -/
def wf_op (op : RecordOp) : Bool := wf_entry (op_entry op)

/-! ## Record-side step lemmas -/

theorem rr_write_item_state_some (s : RecordState) (item : RR_log_entry)
    (s' : RecordState) (h : rr_write_item_state s item = some s') :
    s'.log = s.log ++ [item] ∧ s'.interrupt_cache = s.interrupt_cache ∧
    s'.last_prog_point = item.prog_point ∧ s'.mode = s.mode ∧
    s'.header = s.header := by
  unfold rr_write_item_state at h
  split at h
  · cases h
    exact ⟨rfl, rfl, rfl, rfl, rfl⟩
  · cases h

/-- Effect of one capture call on the log and the interrupt cache. -/
theorem rr_record_step_spec (s : RecordState) (op : RecordOp) (s' : RecordState)
    (h : rr_record_step s op = some s') :
    match op with
    | .interrupt_request _ _ v =>
        (s.interrupt_cache = v ∧ s' = s) ∨
        (s.interrupt_cache ≠ v ∧ s'.log = s.log ++ [op_entry op] ∧
          s'.interrupt_cache = v)
    | .exit_request _ _ v =>
        (v = 0 ∧ s' = s) ∨
        (v ≠ 0 ∧ s'.log = s.log ++ [op_entry op] ∧
          s'.interrupt_cache = s.interrupt_cache)
    | _ => s'.log = s.log ++ [op_entry op] ∧ s'.interrupt_cache = s.interrupt_cache := by
  cases op with
  | interrupt_request cs pp v =>
    simp only [rr_record_step, rr_record_interrupt_request] at h
    by_cases hc : s.interrupt_cache = v
    · rw [if_neg (by simp [hc])] at h
      cases h
      exact Or.inl ⟨hc, rfl⟩
    · rw [if_pos hc] at h
      obtain ⟨h1, h2, -, -, -⟩ := rr_write_item_state_some _ _ _ h
      exact Or.inr ⟨hc, h1, h2⟩
  | exit_request cs pp v =>
    simp only [rr_record_step, rr_record_exit_request] at h
    by_cases hv : v = 0
    · rw [if_neg (by simp [hv])] at h
      cases h
      exact Or.inl ⟨hv, rfl⟩
    · rw [if_pos hv] at h
      obtain ⟨h1, h2, -, -, -⟩ := rr_write_item_state_some _ _ _ h
      exact Or.inr ⟨hv, h1, h2⟩
  | debug cs pp =>
    obtain ⟨h1, h2, -, -, -⟩ := rr_write_item_state_some _ _ _ h
    exact ⟨h1, h2⟩
  | input_1 cs pp v =>
    obtain ⟨h1, h2, -, -, -⟩ := rr_write_item_state_some _ _ _ h
    exact ⟨h1, h2⟩
  | input_2 cs pp v =>
    obtain ⟨h1, h2, -, -, -⟩ := rr_write_item_state_some _ _ _ h
    exact ⟨h1, h2⟩
  | input_4 cs pp v =>
    obtain ⟨h1, h2, -, -, -⟩ := rr_write_item_state_some _ _ _ h
    exact ⟨h1, h2⟩
  | input_8 cs pp v =>
    obtain ⟨h1, h2, -, -, -⟩ := rr_write_item_state_some _ _ _ h
    exact ⟨h1, h2⟩
  | cpu_mem_rw cs pp addr buf =>
    obtain ⟨h1, h2, -, -, -⟩ := rr_write_item_state_some _ _ _ h
    exact ⟨h1, h2⟩
  | cpu_mem_unmap cs pp addr buf =>
    obtain ⟨h1, h2, -, -, -⟩ := rr_write_item_state_some _ _ _ h
    exact ⟨h1, h2⟩
  | mem_region_change cs pp st sz name mt added =>
    obtain ⟨h1, h2, -, -, -⟩ := rr_write_item_state_some _ _ _ h
    exact ⟨h1, h2⟩
  | hd_transfer cs pp t src dst n =>
    obtain ⟨h1, h2, -, -, -⟩ := rr_write_item_state_some _ _ _ h
    exact ⟨h1, h2⟩
  | net_transfer cs pp t src dst n =>
    obtain ⟨h1, h2, -, -, -⟩ := rr_write_item_state_some _ _ _ h
    exact ⟨h1, h2⟩
  | handle_packet cs pp p buf d =>
    obtain ⟨h1, h2, -, -, -⟩ := rr_write_item_state_some _ _ _ h
    exact ⟨h1, h2⟩

/-- Each capture call leaves the log unchanged or appends exactly its entry. -/
theorem rr_record_step_log (s : RecordState) (op : RecordOp) (s' : RecordState)
    (h : rr_record_step s op = some s') :
    s'.log = s.log ∨ s'.log = s.log ++ [op_entry op] := by
  have hspec := rr_record_step_spec s op s' h
  cases op with
  | interrupt_request cs pp v =>
    rcases hspec with ⟨-, rfl⟩ | ⟨-, h1, -⟩
    · exact Or.inl rfl
    · exact Or.inr h1
  | exit_request cs pp v =>
    rcases hspec with ⟨-, rfl⟩ | ⟨-, h1, -⟩
    · exact Or.inl rfl
    · exact Or.inr h1
  | debug cs pp => exact Or.inr hspec.1
  | input_1 cs pp v => exact Or.inr hspec.1
  | input_2 cs pp v => exact Or.inr hspec.1
  | input_4 cs pp v => exact Or.inr hspec.1
  | input_8 cs pp v => exact Or.inr hspec.1
  | cpu_mem_rw cs pp addr buf => exact Or.inr hspec.1
  | cpu_mem_unmap cs pp addr buf => exact Or.inr hspec.1
  | mem_region_change cs pp st sz name mt added => exact Or.inr hspec.1
  | hd_transfer cs pp t src dst n => exact Or.inr hspec.1
  | net_transfer cs pp t src dst n => exact Or.inr hspec.1
  | handle_packet cs pp p buf d => exact Or.inr hspec.1

/-- Generic invariant propagation along a run of capture calls. -/
theorem runRecord_inv (P : RecordState → Prop)
    (hstep : ∀ s op s', rr_record_step s op = some s' → P s → P s') :
    ∀ (ops : List RecordOp) (s s' : RecordState),
      runRecord ops s = some s' → P s → P s' := by
  intro ops
  induction ops with
  | nil =>
    intro s s' h hp
    cases h
    exact hp
  | cons op rest ih =>
    intro s s' h hp
    unfold runRecord at h
    cases hstep1 : rr_record_step s op with
    | none => rw [hstep1] at h; cases h
    | some s1 =>
      rw [hstep1] at h
      exact ih s1 s' h (hstep s op s1 hstep1 hp)

theorem runRecord_wf (ops : List RecordOp) (s s' : RecordState)
    (hops : ∀ op ∈ ops, wf_op op = true)
    (h : runRecord ops s = some s') (hs : ∀ e ∈ s.log, wf_entry e = true) :
    ∀ e ∈ s'.log, wf_entry e = true := by
  induction ops generalizing s with
  | nil => cases h; exact hs
  | cons op rest ih =>
    unfold runRecord at h
    cases hstep1 : rr_record_step s op with
    | none => rw [hstep1] at h; cases h
    | some s1 =>
      rw [hstep1] at h
      refine ih s1 (fun o ho => hops o (by simp [ho])) h ?_
      intro e he
      rcases rr_record_step_log s op s1 hstep1 with h1 | h1
      · exact hs e (h1 ▸ he)
      · rw [h1] at he
        rcases List.mem_append.mp he with he1 | he1
        · exact hs e he1
        · have : e = op_entry op := by simpa using he1
          rw [this]
          exact hops op (by simp)

/-! ## Interrupt compaction invariant -/

/-- The sequence of `u32` values carried by the `INTERRUPT_REQUEST` entries of
a log, in log order. -/
def interrupt_values (log : List RR_log_entry) : List Nat :=
  log.filterMap fun e =>
    match e.variant with
    | .interrupt_request v => some v
    | _ => none

theorem interrupt_values_append (l1 l2 : List RR_log_entry) :
    interrupt_values (l1 ++ l2) = interrupt_values l1 ++ interrupt_values l2 :=
  List.filterMap_append l1 l2 _

/-- Invariant tying the compaction cache to the log: the interrupt values
already written are pairwise distinct between neighbours, and the cache holds
the last one (if any). -/
def c2_inv (s : RecordState) : Prop :=
  List.Chain' (· ≠ ·) (interrupt_values s.log) ∧
  ∀ v, (interrupt_values s.log).getLast? = some v → s.interrupt_cache = v

theorem c2_inv_append_nonint (s s' : RecordState) (e : RR_log_entry)
    (hlog : s'.log = s.log ++ [e]) (hc : s'.interrupt_cache = s.interrupt_cache)
    (he : interrupt_values [e] = []) (hi : c2_inv s) : c2_inv s' := by
  have hvals : interrupt_values s'.log = interrupt_values s.log := by
    rw [hlog, interrupt_values_append, he, List.append_nil]
  exact ⟨hvals ▸ hi.1, fun v hv => hc ▸ hi.2 v (hvals ▸ hv)⟩

theorem c2_inv_step (s : RecordState) (op : RecordOp) (s' : RecordState)
    (h : rr_record_step s op = some s') (hi : c2_inv s) : c2_inv s' := by
  have hspec := rr_record_step_spec s op s' h
  cases op with
  | interrupt_request cs pp v =>
    rcases hspec with ⟨-, rfl⟩ | ⟨hc, hlog, hcache⟩
    · exact hi
    · have hvals : interrupt_values s'.log = interrupt_values s.log ++ [v] := by
        rw [hlog, interrupt_values_append]
        rfl
      constructor
      · rw [hvals, List.chain'_append]
        refine ⟨hi.1, List.chain'_singleton v, ?_⟩
        intro x hx y hy
        have hxv : s.interrupt_cache = x := hi.2 x hx
        have hyv : v = y := by simpa using hy
        rw [← hyv, ← hxv]
        exact hc
      · intro w hw
        rw [hvals, List.getLast?_concat] at hw
        cases hw
        exact hcache
  | exit_request cs pp v =>
    rcases hspec with ⟨-, rfl⟩ | ⟨-, hlog, hcache⟩
    · exact hi
    · exact c2_inv_append_nonint s s' _ hlog hcache rfl hi
  | debug cs pp => exact c2_inv_append_nonint s s' _ hspec.1 hspec.2 rfl hi
  | input_1 cs pp v => exact c2_inv_append_nonint s s' _ hspec.1 hspec.2 rfl hi
  | input_2 cs pp v => exact c2_inv_append_nonint s s' _ hspec.1 hspec.2 rfl hi
  | input_4 cs pp v => exact c2_inv_append_nonint s s' _ hspec.1 hspec.2 rfl hi
  | input_8 cs pp v => exact c2_inv_append_nonint s s' _ hspec.1 hspec.2 rfl hi
  | cpu_mem_rw cs pp addr buf =>
    exact c2_inv_append_nonint s s' _ hspec.1 hspec.2 rfl hi
  | cpu_mem_unmap cs pp addr buf =>
    exact c2_inv_append_nonint s s' _ hspec.1 hspec.2 rfl hi
  | mem_region_change cs pp st sz name mt added =>
    exact c2_inv_append_nonint s s' _ hspec.1 hspec.2 rfl hi
  | hd_transfer cs pp t src dst n =>
    exact c2_inv_append_nonint s s' _ hspec.1 hspec.2 rfl hi
  | net_transfer cs pp t src dst n =>
    exact c2_inv_append_nonint s s' _ hspec.1 hspec.2 rfl hi
  | handle_packet cs pp p buf d =>
    exact c2_inv_append_nonint s s' _ hspec.1 hspec.2 rfl hi

/-! ## Nonzero exit-request invariant -/

/-- An entry respects the exit-request compaction: if it is an `EXIT_REQUEST`
entry, its value is nonzero. -/
def exit_nonzero (e : RR_log_entry) : Prop :=
  e.kind = RR_EXIT_REQUEST → e.exit_value ≠ 0

theorem exit_nonzero_step (s : RecordState) (op : RecordOp) (s' : RecordState)
    (h : rr_record_step s op = some s')
    (hs : ∀ e ∈ s.log, exit_nonzero e) : ∀ e ∈ s'.log, exit_nonzero e := by
  have hspec := rr_record_step_spec s op s' h
  have happended : ∀ e0 : RR_log_entry, exit_nonzero e0 →
      s'.log = s.log ++ [e0] → ∀ e ∈ s'.log, exit_nonzero e := by
    intro e0 he0 hlog e he
    rw [hlog] at he
    rcases List.mem_append.mp he with h1 | h1
    · exact hs e h1
    · have : e = e0 := by simpa using h1
      rw [this]
      exact he0
  cases op with
  | interrupt_request cs pp v =>
    rcases hspec with ⟨-, rfl⟩ | ⟨-, hlog, -⟩
    · exact hs
    · exact happended _ (by intro hk; cases hk) hlog
  | exit_request cs pp v =>
    rcases hspec with ⟨-, rfl⟩ | ⟨hv, hlog, -⟩
    · exact hs
    · exact happended (op_entry (.exit_request cs pp v)) (fun _ => hv) hlog
  | debug cs pp => exact happended _ (by intro hk; cases hk) hspec.1
  | input_1 cs pp v => exact happended _ (by intro hk; cases hk) hspec.1
  | input_2 cs pp v => exact happended _ (by intro hk; cases hk) hspec.1
  | input_4 cs pp v => exact happended _ (by intro hk; cases hk) hspec.1
  | input_8 cs pp v => exact happended _ (by intro hk; cases hk) hspec.1
  | cpu_mem_rw cs pp addr buf => exact happended _ (by intro hk; cases hk) hspec.1
  | cpu_mem_unmap cs pp addr buf => exact happended _ (by intro hk; cases hk) hspec.1
  | mem_region_change cs pp st sz name mt added =>
    exact happended _ (by intro hk; cases hk) hspec.1
  | hd_transfer cs pp t src dst n => exact happended _ (by intro hk; cases hk) hspec.1
  | net_transfer cs pp t src dst n => exact happended _ (by intro hk; cases hk) hspec.1
  | handle_packet cs pp p buf d => exact happended _ (by intro hk; cases hk) hspec.1

/-! ## Claim C1: encoder/decoder round-trip -/

/-- **C1.** For every sequence of `record_*` calls that `rr_write_item`
serializes into a log, decoding the log with `rr_read_item` repeatedly yields
exactly the recorded entry sequence, in order: kinds, program points,
callsites and payloads (sub-kinds, tails) all agree, because the decoded list
equals the recorded list. -/
theorem c1_record_write_read_roundtrip (ops : List RecordOp)
    (s0 s : RecordState) (h0 : s0.log = [])
    (hwf : ∀ op ∈ ops, wf_op op = true)
    (hrun : runRecord ops s0 = some s) :
    rr_read_log (rr_write_log s.log) = some s.log := by
  apply rr_read_log_write_log
  apply runRecord_wf ops s0 s hwf hrun
  intro e he
  rw [h0] at he
  cases he

/-- A sample capture sequence exercising several entry kinds. -/
def c1_ops : List RecordOp :=
  [.input_1 2 ⟨1, 0, 0⟩ 66,
   .interrupt_request 3 ⟨2, 0, 0⟩ 1,
   .cpu_mem_rw 4 ⟨3, 0, 0⟩ 4096 [1, 2, 3],
   .handle_packet 5 ⟨4, 0, 0⟩ 77 [9, 8] 1,
   .exit_request 6 ⟨5, 0, 0⟩ 7]

theorem c1_record_write_read_roundtrip_witness :
    rr_read_log (rr_write_log
        ((runRecord c1_ops (rr_do_begin_record process_init)).getD process_init).log) =
      some ((runRecord c1_ops (rr_do_begin_record process_init)).getD process_init).log :=
  c1_record_write_read_roundtrip c1_ops (rr_do_begin_record process_init) _
    rfl (by decide) rfl

/-! ## Claim C2: interrupt compaction -/

/-- **C2.** `rr_record_interrupt_request(call_site, v)` writes a log entry iff
`v` differs from the cached last-observed interrupt word
(`panda_current_interrupt_request`), updating the cache to `v` when it writes;
consequently the interrupt values of any log produced by a run of capture
calls are consecutively distinct (no two consecutive `INTERRUPT_REQUEST`
entries carry the same `u32`). -/
theorem c2_interrupt_compaction :
    (∀ (s : RecordState) (call_site : Nat) (pp : RR_prog_point) (v : Nat)
        (s' : RecordState),
        rr_record_interrupt_request s call_site pp v = some s' →
        ((v = s.interrupt_cache → s' = s) ∧
         (v ≠ s.interrupt_cache →
            s'.log = s.log ++ [⟨pp, call_site, .interrupt_request v⟩] ∧
            s'.interrupt_cache = v))) ∧
    (∀ (ops : List RecordOp) (s0 s : RecordState), s0.log = [] →
        runRecord ops s0 = some s →
        List.Chain' (· ≠ ·) (interrupt_values s.log)) := by
  constructor
  · intro s cs pp v s' h
    constructor
    · intro hv
      unfold rr_record_interrupt_request at h
      rw [if_neg (by simp [hv])] at h
      cases h
      rfl
    · intro hv
      unfold rr_record_interrupt_request at h
      rw [if_pos (Ne.symm hv)] at h
      obtain ⟨h1, h2, -, -, -⟩ := rr_write_item_state_some _ _ _ h
      exact ⟨by simpa using h1, by simpa using h2⟩
  · intro ops s0 s h0 hrun
    have hinv : c2_inv s := by
      apply runRecord_inv c2_inv c2_inv_step ops s0 s hrun
      constructor
      · rw [h0]
        exact List.chain'_nil
      · intro v hv
        rw [h0] at hv
        cases hv
    exact hinv.1

/-- A capture sequence with a redundant interrupt observation in the middle. -/
def c2_ops : List RecordOp :=
  [.interrupt_request 3 ⟨1, 0, 0⟩ 1,
   .interrupt_request 3 ⟨2, 0, 0⟩ 1,
   .input_1 2 ⟨3, 0, 0⟩ 9,
   .interrupt_request 3 ⟨4, 0, 0⟩ 2]

theorem c2_interrupt_compaction_witness :
    List.Chain' (· ≠ ·) (interrupt_values
      ((runRecord c2_ops (rr_do_begin_record process_init)).getD process_init).log) :=
  c2_interrupt_compaction.2 c2_ops (rr_do_begin_record process_init) _ rfl rfl

/-! ## Claim C5: terminator and header finalization -/

/-- **C5.** Ending a record session writes an `RR_LAST` entry as the final
entry of the log (and no entry can be written afterwards: `rr_mode` is
`RR_OFF`, so `rr_write_item`'s `rr_in_record` assertion fails); the `LAST`
entry's program point is the final program point `pp`, and the header is
rewritten at close to that same final program point. -/
theorem c5_terminator_and_header (s : RecordState) (pp : RR_prog_point)
    (s' : RecordState) (h : rr_do_end_record s pp = some s') :
    s'.log = s.log ++ [⟨pp, RR_CALLSITE_LAST, .rlast⟩] ∧
    s'.log.getLast? = some ⟨pp, RR_CALLSITE_LAST, .rlast⟩ ∧
    s'.header = pp ∧ s'.mode = RR_mode.RR_OFF ∧
    (∀ item : RR_log_entry, rr_write_item_state s' item = none) := by
  unfold rr_do_end_record at h
  cases hw : rr_record_end_of_log s pp with
  | none => rw [hw] at h; cases h
  | some s1 =>
    rw [hw] at h
    cases h
    unfold rr_record_end_of_log at hw
    obtain ⟨h1, -, h3, -, -⟩ := rr_write_item_state_some _ _ _ hw
    refine ⟨by simpa [rr_destroy_log] using h1, ?_, by simp [rr_destroy_log, h3], rfl, ?_⟩
    · have : ({ rr_destroy_log s1 with mode := RR_mode.RR_OFF } : RecordState).log
          = s1.log := rfl
      rw [this, h1, List.getLast?_concat]
    · intro item
      simp [rr_write_item_state, rr_in_record, rr_destroy_log]

theorem c5_terminator_and_header_witness :
    ((rr_do_end_record (rr_do_begin_record process_init) ⟨5, 0, 0⟩).getD
        process_init).header = ⟨5, 0, 0⟩ ∧
    ((rr_do_end_record (rr_do_begin_record process_init) ⟨5, 0, 0⟩).getD
        process_init).mode = RR_mode.RR_OFF :=
  ⟨(c5_terminator_and_header (rr_do_begin_record process_init) ⟨5, 0, 0⟩ _ rfl).2.2.1,
   (c5_terminator_and_header (rr_do_begin_record process_init) ⟨5, 0, 0⟩ _ rfl).2.2.2.1⟩

/-! ## Claim C8: the interrupt cache is not reset on session start -/

/-- **C8 counterexample.** Run a first record session that observes interrupt
word `5`, end it, and begin a second session.  At the start of the second
session the cache still holds `5` (it was not reset to the process-start value
`0`), and the session's first `rr_record_interrupt_request` call with value
`5` — which differs from the claimed reset value `0` — writes nothing: the new
log stays empty. -/
theorem c8_counterexample :
    (((rr_record_interrupt_request (rr_do_begin_record process_init) 0 ⟨1, 0, 0⟩ 5).bind
        (fun s1 => rr_do_end_record s1 ⟨2, 0, 0⟩)).map
      (fun s2 =>
        ((rr_do_begin_record s2).interrupt_cache,
         (rr_record_interrupt_request (rr_do_begin_record s2) 0 ⟨3, 0, 0⟩ 5).map
           RecordState.log))) = some (5, some []) := by
  rfl

/-- **C8 (amended).** `rr_reset_state` clears `rr_record_in_progress`,
`rr_skipped_callsite_location` and the guest instruction count and requests a
TB flush, but does **not** reset `panda_current_interrupt_request`; neither
does `rr_do_begin_record`.  The cache is `0` only at process start, so it
persists across sessions of the same process. -/
theorem c8_amended_cache_not_reset (s : RecordState) :
    (rr_reset_state s).interrupt_cache = s.interrupt_cache ∧
    (rr_do_begin_record s).interrupt_cache = s.interrupt_cache ∧
    (rr_reset_state s).record_in_progress = 0 ∧
    (rr_reset_state s).skipped_callsite_location = 0 ∧
    (rr_reset_state s).guest_instr_count = 0 ∧
    (rr_reset_state s).please_flush_tb = 1 ∧
    process_init.interrupt_cache = 0 :=
  ⟨rfl, rfl, rfl, rfl, rfl, rfl, rfl⟩

/-! ## Replay side: state, prefetch queue, dispatchers -/

/-- `RR_HIST_SIZE` — ring-buffer history length. -/
def RR_HIST_SIZE : Nat := 10

/-- `RR_MAX_QUEUE_LEN` — the prefetch-queue cap in `rr_fill_queue`. -/
def RR_MAX_QUEUE_LEN : Nat := 65536

/-- The process globals the replay side touches: the remaining (not yet
decoded) entries of the open replay log, the header program point read at
open (`rr_nondet_log->last_prog_point`), the prefetch queue
(`rr_queue_head`..`rr_queue_tail`), the recycle pool (`recycle_list`, LIFO
with the most recent at the head), the debug ring history with its index, and
the cached `panda_current_interrupt_request`.

The log is kept at entry granularity: `rr_read_item`'s byte-level behaviour
is established by `rr_read_item_write_item`, and `rr_log_is_empty`
(`size == bytes_read`) corresponds to the entry list being exhausted. -/
structure ReplayState where
  log : List RR_log_entry
  header : RR_prog_point
  queue : List RR_log_entry
  recycle : List RR_log_entry
  hist : List RR_log_entry
  hist_index : Nat
  interrupt_cache : Nat
deriving DecidableEq, Repr

/-- `rr_log_is_empty`: on a replay log, whether all bytes have been read. -/
def rr_log_is_empty (s : ReplayState) : Bool := s.log.isEmpty

/-- `free_entry_params`: release the variable-length tails owned by an entry
(`cpu_mem_rw`, `cpu_mem_unmap` and `handle_packet` buffers; the
`mem_region_change` name is *not* freed by the C code). -/
def free_entry_params (e : RR_log_entry) : RR_log_entry :=
  match e.variant with
  | .skipped_call (.cpu_mem_rw addr _) =>
      { e with variant := .skipped_call (.cpu_mem_rw addr []) }
  | .skipped_call (.cpu_mem_unmap addr _) =>
      { e with variant := .skipped_call (.cpu_mem_unmap addr []) }
  | .skipped_call (.handle_packet p d _) =>
      { e with variant := .skipped_call (.handle_packet p d []) }
  | _ => e

/-- `add_to_recycle_list`: free the entry's buffers, push the shell onto the
recycle pool (LIFO), and store a copy in the ring history at the current
index, advancing the index modulo `RR_HIST_SIZE`. -/
def add_to_recycle_list (s : ReplayState) (e : RR_log_entry) : ReplayState :=
  let ef := free_entry_params e
  { s with
    recycle := ef :: s.recycle
    hist := s.hist.set s.hist_index ef
    hist_index := (s.hist_index + 1) % RR_HIST_SIZE }

/-- Whether the entry just appended by `rr_fill_queue`'s loop (with
`num_entries` entries now in the queue) triggers the loop's cutoff `break`:
`SKIPPED_CALL` at `MAIN_LOOP_WAIT`, `INTERRUPT_REQUEST`, or the count
exceeding `RR_MAX_QUEUE_LEN`. -/
def rr_fill_cutoff (e : RR_log_entry) (num_entries : Nat) : Bool :=
  decide ((e.kind = RR_SKIPPED_CALL ∧ e.callsite_loc = RR_CALLSITE_MAIN_LOOP_WAIT) ∨
    e.kind = RR_INTERRUPT_REQUEST ∨ num_entries > RR_MAX_QUEUE_LEN)

/-- The loop of `rr_fill_queue`: while the log is not empty, read an item and
append it to the queue (the appended entries are returned in order, together
with the remaining log); `break` right after appending a cutoff entry.  `n`
is the number of entries appended so far (`num_entries` before the
increment). -/
def rr_fill_queue_loop : List RR_log_entry → Nat → List RR_log_entry × List RR_log_entry
  | [], _ => ([], [])
  | e :: rest, n =>
    if rr_fill_cutoff e (n + 1) then ([e], rest)
    else
      let (q, r) := rr_fill_queue_loop rest (n + 1)
      (e :: q, r)

/-- `rr_fill_queue`: assert the queue is empty (`none` on failure), then run
the fill loop.  (The progress display and `rr_max_num_queue_entries` stat are
diagnostics and not modelled.) -/
def rr_fill_queue (s : ReplayState) : Option ReplayState :=
  if s.queue.isEmpty then
    some { s with
      queue := (rr_fill_queue_loop s.log 0).1
      log := (rr_fill_queue_loop s.log 0).2 }
  else none

/-- Modelled from the spec: `rr_prog_point_compare` is defined in
`panda/rr/rr_log.h`, which is not under `src/`.  Per spec §4.3/§9 the
comparison is kind-aware: for `INTERRUPT_REQUEST` and `SKIPPED_CALL` only the
guest instruction count is compared (pc/secondary ignored), while for the
other kinds all three fields must match; `get_next_entry` treats any
non-match — in particular a head strictly ahead of the current point — as not
due.  This predicate models `rr_prog_point_compare current recorded kind == 0`. -/
def rr_prog_point_matches (current recorded : RR_prog_point)
    (kind : RR_log_entry_kind) : Bool :=
  if kind = RR_INTERRUPT_REQUEST ∨ kind = RR_SKIPPED_CALL then
    decide (current.guest_instr_count = recorded.guest_instr_count)
  else decide (current = recorded)

/-- The DEBUG-skipping loop at the top of `get_next_entry`: when the
requested kind is neither `INTERRUPT_REQUEST` nor `SKIPPED_CALL`, detach
every leading `RR_DEBUG` entry from the queue (the C loop drops them on the
floor — they are not passed to `add_to_recycle_list`). -/
def rr_skip_debug (kind : RR_log_entry_kind) (q : List RR_log_entry) :
    List RR_log_entry :=
  if kind ≠ RR_INTERRUPT_REQUEST ∧ kind ≠ RR_SKIPPED_CALL then
    q.dropWhile (fun e => decide (e.kind = RR_DEBUG))
  else q

/-- `get_next_entry`: refill the queue when it is empty (if it stays empty,
return "none"); skip leading DEBUG entries for non-interrupt/non-skipped
requests; then compare the head against the current program point (with the
start-of-log grace for `instr == 0`), the requested kind, and — when
`check_callsite` — the callsite; detach and return the head only when all
checks pass, otherwise leave the head in place and return "none".

The result is `none` for a fatal path: the C code dereferences the null queue
head when the DEBUG skipping empties the queue (modelled as the fatal
outcome); the inner `Option` is the function's NULL/non-NULL result. -/
def get_next_entry (s : ReplayState) (current : RR_prog_point)
    (kind : RR_log_entry_kind) (call_site : Nat) (check_callsite : Bool) :
    Option (Option RR_log_entry × ReplayState) :=
  match (if s.queue.isEmpty then rr_fill_queue s else some s) with
  | none => none
  | some s1 =>
    if s1.queue.isEmpty then some (none, s1)
    else
      match rr_skip_debug kind s1.queue with
      | [] => none
      | head :: rest =>
        let s2 : ReplayState := { s1 with queue := head :: rest }
        if head.prog_point.guest_instr_count ≠ 0 ∧
            rr_prog_point_matches current head.prog_point kind = false then
          some (none, s2)
        else if head.kind ≠ kind then some (none, s2)
        else if check_callsite = true ∧ head.callsite_loc ≠ call_site then
          some (none, s2)
        else some (some head, { s2 with queue := rest })

/-- `rr_replay_interrupt_request`: ask for an `INTERRUPT_REQUEST` at this
callsite (with callsite checking); when an entry is returned, update the
cached interrupt word, recycle the entry and refill the queue; always output
the cached word. -/
def rr_replay_interrupt_request (s : ReplayState) (current : RR_prog_point)
    (call_site : Nat) : Option (Nat × ReplayState) :=
  match get_next_entry s current RR_INTERRUPT_REQUEST call_site true with
  | none => none
  | some (none, s1) => some (s1.interrupt_cache, s1)
  | some (some e, s1) =>
    let s2 := add_to_recycle_list { s1 with interrupt_cache := e.interrupt_value } e
    match rr_fill_queue s2 with
    | none => none
    | some s3 => some (s3.interrupt_cache, s3)

/-- `rr_replay_exit_request`: ask for an `EXIT_REQUEST` without callsite
checking; output `0` when none is due; otherwise assert the callsite matches
(fatal on mismatch), output the recorded value and recycle the entry. -/
def rr_replay_exit_request (s : ReplayState) (current : RR_prog_point)
    (call_site : Nat) : Option (Nat × ReplayState) :=
  match get_next_entry s current RR_EXIT_REQUEST call_site false with
  | none => none
  | some (none, s1) => some (0, s1)
  | some (some e, s1) =>
    if e.callsite_loc ≠ call_site then none
    else some (e.exit_value, add_to_recycle_list s1 e)

/-- `rr_replay_finished`: the log is exhausted, the queue head is `RR_LAST`,
and the guest instruction count has reached the head's program point.  (The C
code dereferences the queue head; with an empty queue that is a crash — the
empty-queue branch here is a modelling convention and is not exercised by the
theorems.) -/
def rr_replay_finished (s : ReplayState) (guest_instr_count : Nat) : Bool :=
  rr_log_is_empty s &&
    match s.queue with
    | [] => false
    | head :: _ =>
      decide (head.kind = RR_LAST) &&
      decide (head.prog_point.guest_instr_count ≤ guest_instr_count)

/-- Follows the spec's words (for comparison with `rr_replay_finished`):
"`replay_finished()` is true when guest PP ≥ `header.last_prog_point.instr`
and the queue head is `LAST`". -/
def rr_replay_finished_spec (s : ReplayState) (guest_instr_count : Nat) : Bool :=
  decide (s.header.guest_instr_count ≤ guest_instr_count) &&
    match s.queue with
    | [] => false
    | head :: _ => decide (head.kind = RR_LAST)

/-! ## Claim C3: queue cutoff -/

theorem rr_fill_queue_loop_spec :
    ∀ (log : List RR_log_entry) (n : Nat), n ≤ RR_MAX_QUEUE_LEN →
      ∀ q r, rr_fill_queue_loop log n = (q, r) →
        log = q ++ r ∧ n + q.length ≤ RR_MAX_QUEUE_LEN + 1 ∧
        (r = [] ∨ ∃ last, q.getLast? = some last ∧
          rr_fill_cutoff last (n + q.length) = true) ∧
        (∀ i, i + 1 < q.length →
          rr_fill_cutoff (q.getD i default) (n + i + 1) = false) := by
  intro log
  induction log with
  | nil =>
    intro n hn q r h
    cases h
    refine ⟨rfl, by simpa using Nat.le_succ_of_le hn, Or.inl rfl, ?_⟩
    intro i hi
    simp at hi
  | cons e rest ih =>
    intro n hn q r h
    simp only [rr_fill_queue_loop] at h
    by_cases hc : rr_fill_cutoff e (n + 1) = true
    · rw [if_pos hc] at h
      cases h
      refine ⟨rfl, by simp; omega, Or.inr ⟨e, rfl, by simpa using hc⟩, ?_⟩
      intro i hi
      simp at hi
    · rw [if_neg hc] at h
      have hcf : rr_fill_cutoff e (n + 1) = false := by
        simpa using hc
      have hle : n + 1 ≤ RR_MAX_QUEUE_LEN := by
        have := hcf
        simp only [rr_fill_cutoff, decide_eq_false_iff_not] at this
        push_neg at this
        omega
      cases hl : rr_fill_queue_loop rest (n + 1) with
      | mk q' r' =>
        rw [hl] at h
        cases h
        obtain ⟨ih1, ih2, ih3, ih4⟩ := ih (n + 1) hle q' r' hl
        refine ⟨by simp [ih1], by simp; omega, ?_, ?_⟩
        · rcases ih3 with rfl | ⟨last, hql, hcut⟩
          · exact Or.inl rfl
          · refine Or.inr ⟨last, ?_, ?_⟩
            · cases q' with
              | nil => cases hql
              | cons x xs =>
                rw [List.getLast?_cons_cons]
                exact hql
            · have harith : n + (e :: q').length = n + 1 + q'.length := by
                simp
                omega
              rw [harith]
              exact hcut
        · intro i hi
          cases i with
          | zero =>
            simpa using hcf
          | succ j =>
            have hj : j + 1 < q'.length := by
              simp at hi
              omega
            have harith : n + (j + 1) + 1 = n + 1 + j + 1 := by omega
            have := ih4 j hj
            simp only [List.getD_cons_succ]
            rw [harith]
            exact this

/-- **C3.** During every `rr_fill_queue` the prefetch queue (empty on entry,
by the function's own assertion) never exceeds `RR_MAX_QUEUE_LEN + 1 = 65537`
entries, and the fill loop stops exactly when the log runs out or the
just-appended entry triggers a cutoff — it is an `INTERRUPT_REQUEST`, a
`SKIPPED_CALL` at `RR_CALLSITE_MAIN_LOOP_WAIT`, or the entry count exceeds
the cap — with no earlier entry triggering one. -/
theorem c3_queue_cutoff (s s' : ReplayState) (h : rr_fill_queue s = some s') :
    s'.queue.length ≤ RR_MAX_QUEUE_LEN + 1 ∧
    s.log = s'.queue ++ s'.log ∧
    (s'.log = [] ∨ ∃ last, s'.queue.getLast? = some last ∧
        rr_fill_cutoff last s'.queue.length = true) ∧
    (∀ i, i + 1 < s'.queue.length →
        rr_fill_cutoff (s'.queue.getD i default) (i + 1) = false) := by
  unfold rr_fill_queue at h
  split at h
  · cases h
    obtain ⟨h1, h2, h3, h4⟩ :=
      rr_fill_queue_loop_spec s.log 0 (by omega) _ _ rfl
    refine ⟨by simpa using h2, h1, by simpa using h3, ?_⟩
    intro i hi
    have := h4 i hi
    simpa using this
  · cases h

/-- A one-interrupt log for exercising `rr_fill_queue`. -/
def c3_state : ReplayState :=
  { log := [⟨⟨1, 0, 0⟩, 3, .interrupt_request 7⟩, ⟨⟨2, 0, 0⟩, 2, .input_1 5⟩]
    header := ⟨9, 0, 0⟩
    queue := []
    recycle := []
    hist := List.replicate RR_HIST_SIZE default
    hist_index := 0
    interrupt_cache := 0 }

theorem c3_queue_cutoff_witness :
    ((rr_fill_queue c3_state).getD c3_state).queue.length ≤ RR_MAX_QUEUE_LEN + 1 ∧
    c3_state.log = ((rr_fill_queue c3_state).getD c3_state).queue ++
      ((rr_fill_queue c3_state).getD c3_state).log :=
  ⟨(c3_queue_cutoff c3_state _ rfl).1, (c3_queue_cutoff c3_state _ rfl).2.1⟩

/-! ## Claim C4: get_next point-matching policy -/

theorem rr_prog_point_matches_false_of_lt (current pp : RR_prog_point)
    (kind : RR_log_entry_kind) (h : current.guest_instr_count ≠ pp.guest_instr_count) :
    rr_prog_point_matches current pp kind = false := by
  unfold rr_prog_point_matches
  split
  · simpa using h
  · simp only [decide_eq_false_iff_not]
    intro heq
    exact h (by rw [heq])

/-- **C4.** `get_next_entry(kind, call_site, check_callsite)` detaches and
returns the (post-DEBUG-skip) queue head exactly when the head's program
point matches the current one under the kind-aware comparison or the head's
guest instruction count is `0` (start-of-log grace), the head's kind is the
requested kind, and — when `check_callsite` — the head's callsite is
`call_site`; in every other case (in particular whenever the head's guest
instruction count is strictly greater than the current one) it returns none
and leaves the head in place. -/
theorem c4_get_next_point_matching (s t : ReplayState) (current : RR_prog_point)
    (kind : RR_log_entry_kind) (call_site : Nat) (check_callsite : Bool)
    (hfill : (if s.queue.isEmpty then rr_fill_queue s else some s) = some t) :
    (t.queue = [] →
      get_next_entry s current kind call_site check_callsite = some (none, t)) ∧
    (∀ head rest, rr_skip_debug kind t.queue = head :: rest →
      (((rr_prog_point_matches current head.prog_point kind = true ∨
            head.prog_point.guest_instr_count = 0) ∧ head.kind = kind ∧
          (check_callsite = true → head.callsite_loc = call_site)) →
        get_next_entry s current kind call_site check_callsite =
          some (some head, { t with queue := rest })) ∧
      (¬ ((rr_prog_point_matches current head.prog_point kind = true ∨
            head.prog_point.guest_instr_count = 0) ∧ head.kind = kind ∧
          (check_callsite = true → head.callsite_loc = call_site)) →
        get_next_entry s current kind call_site check_callsite =
          some (none, { t with queue := head :: rest })) ∧
      (current.guest_instr_count < head.prog_point.guest_instr_count →
        get_next_entry s current kind call_site check_callsite =
          some (none, { t with queue := head :: rest }))) := by
  have hbody : get_next_entry s current kind call_site check_callsite =
      (if t.queue.isEmpty then some (none, t)
       else
        match rr_skip_debug kind t.queue with
        | [] => none
        | head :: rest =>
          let s2 : ReplayState := { t with queue := head :: rest }
          if head.prog_point.guest_instr_count ≠ 0 ∧
              rr_prog_point_matches current head.prog_point kind = false then
            some (none, s2)
          else if head.kind ≠ kind then some (none, s2)
          else if check_callsite = true ∧ head.callsite_loc ≠ call_site then
            some (none, s2)
          else some (some head, { s2 with queue := rest })) := by
    unfold get_next_entry
    rw [hfill]
  constructor
  · intro hq
    rw [hbody, if_pos (by simp [hq])]
  · intro head rest hskip
    have hne : t.queue ≠ [] := by
      intro h0
      rw [h0] at hskip
      revert hskip
      unfold rr_skip_debug
      split <;> simp
    have hbody2 : get_next_entry s current kind call_site check_callsite =
        (let s2 : ReplayState := { t with queue := head :: rest }
         if head.prog_point.guest_instr_count ≠ 0 ∧
             rr_prog_point_matches current head.prog_point kind = false then
           some (none, s2)
         else if head.kind ≠ kind then some (none, s2)
         else if check_callsite = true ∧ head.callsite_loc ≠ call_site then
           some (none, s2)
         else some (some head, { s2 with queue := rest })) := by
      rw [hbody, if_neg (by simp [hne]), hskip]
    refine ⟨?_, ?_, ?_⟩
    · rintro ⟨hm, hk, hcs⟩
      rw [hbody2]
      have hc1 : ¬ (head.prog_point.guest_instr_count ≠ 0 ∧
          rr_prog_point_matches current head.prog_point kind = false) := by
        rcases hm with hm | hm
        · simp [hm]
        · simp [hm]
      rw [if_neg hc1, if_neg (by simp [hk])]
      have hc3 : ¬ (check_callsite = true ∧ head.callsite_loc ≠ call_site) := by
        rintro ⟨hcc, hloc⟩
        exact hloc (hcs hcc)
      rw [if_neg hc3]
    · intro hnot
      rw [hbody2]
      by_cases hc1 : head.prog_point.guest_instr_count ≠ 0 ∧
          rr_prog_point_matches current head.prog_point kind = false
      · rw [if_pos hc1]
      · rw [if_neg hc1]
        have hm : rr_prog_point_matches current head.prog_point kind = true ∨
            head.prog_point.guest_instr_count = 0 := by
          push_neg at hc1
          by_cases hg : head.prog_point.guest_instr_count = 0
          · exact Or.inr hg
          · exact Or.inl (by simpa using hc1 hg)
        by_cases hk : head.kind = kind
        · rw [if_neg (by simp [hk])]
          have hc3 : check_callsite = true ∧ head.callsite_loc ≠ call_site := by
            by_contra hc3
            push_neg at hc3
            exact hnot ⟨hm, hk, hc3⟩
          rw [if_pos hc3]
        · rw [if_pos (by simp [hk])]
    · intro hlt
      rw [hbody2]
      have hc1 : head.prog_point.guest_instr_count ≠ 0 ∧
          rr_prog_point_matches current head.prog_point kind = false := by
        constructor
        · omega
        · exact rr_prog_point_matches_false_of_lt current head.prog_point kind
            (by omega)
      rw [if_pos hc1]

/-- Sample state for the point-matching policy: one pending `INPUT_1` entry. -/
def c4_state : ReplayState :=
  { log := []
    header := ⟨9, 0, 0⟩
    queue := [⟨⟨4, 2, 1⟩, 6, .input_1 33⟩]
    recycle := []
    hist := List.replicate RR_HIST_SIZE default
    hist_index := 0
    interrupt_cache := 0 }

theorem c4_get_next_point_matching_witness :
    get_next_entry c4_state ⟨4, 2, 1⟩ RR_INPUT_1 6 false =
      some (some ⟨⟨4, 2, 1⟩, 6, .input_1 33⟩, { c4_state with queue := [] }) :=
  ((c4_get_next_point_matching c4_state c4_state ⟨4, 2, 1⟩ RR_INPUT_1 6 false
      rfl).2 ⟨⟨4, 2, 1⟩, 6, .input_1 33⟩ [] rfl).1 (by decide)

/-! ## Frame lemmas for the replay queue -/

theorem rr_fill_queue_frame (s s' : ReplayState) (h : rr_fill_queue s = some s') :
    s'.recycle = s.recycle ∧ s'.hist = s.hist ∧ s'.hist_index = s.hist_index ∧
    s'.interrupt_cache = s.interrupt_cache ∧ s'.header = s.header := by
  unfold rr_fill_queue at h
  split at h
  · cases h
    exact ⟨rfl, rfl, rfl, rfl, rfl⟩
  · cases h

theorem get_next_refill_frame (s t : ReplayState)
    (hfill : (if s.queue.isEmpty then rr_fill_queue s else some s) = some t) :
    t.recycle = s.recycle ∧ t.hist = s.hist ∧ t.hist_index = s.hist_index ∧
    t.interrupt_cache = s.interrupt_cache ∧ t.header = s.header := by
  split at hfill
  · exact rr_fill_queue_frame s t hfill
  · cases hfill
    exact ⟨rfl, rfl, rfl, rfl, rfl⟩

/-- The body of `get_next_entry` once the refill step is resolved. -/
theorem get_next_entry_eq (s t : ReplayState) (current : RR_prog_point)
    (kind : RR_log_entry_kind) (call_site : Nat) (check_callsite : Bool)
    (hfill : (if s.queue.isEmpty then rr_fill_queue s else some s) = some t) :
    get_next_entry s current kind call_site check_callsite =
      (if t.queue.isEmpty then some (none, t)
       else
        match rr_skip_debug kind t.queue with
        | [] => none
        | head :: rest =>
          if head.prog_point.guest_instr_count ≠ 0 ∧
              rr_prog_point_matches current head.prog_point kind = false then
            some (none, { t with queue := head :: rest })
          else if head.kind ≠ kind then some (none, { t with queue := head :: rest })
          else if check_callsite = true ∧ head.callsite_loc ≠ call_site then
            some (none, { t with queue := head :: rest })
          else some (some head, { t with queue := rest })) := by
  unfold get_next_entry
  rw [hfill]

/-! ## Claim C9: DEBUG skipping does not recycle -/

/-- Two-entry queue: a leading `RR_DEBUG` then an `INPUT_1`. -/
def c9_state : ReplayState :=
  { log := []
    header := ⟨9, 0, 0⟩
    queue := [⟨⟨1, 0, 0⟩, 3, .rdebug⟩, ⟨⟨1, 2, 3⟩, 4, .input_1 7⟩]
    recycle := []
    hist := List.replicate RR_HIST_SIZE default
    hist_index := 0
    interrupt_cache := 0 }

/-- **C9 counterexample.** Requesting an `INPUT_1` with a leading `RR_DEBUG`
entry on the queue removes the DEBUG entry from the queue, but the recycle
pool stays empty and the ring-history index does not advance: the skipped
DEBUG entry is *not* passed through `add_to_recycle_list` — it is dropped. -/
theorem c9_counterexample :
    (get_next_entry c9_state ⟨1, 2, 3⟩ RR_INPUT_1 4 false).map
      (fun p => (p.1, p.2.queue, p.2.recycle, p.2.hist_index)) =
    some (some ⟨⟨1, 2, 3⟩, 4, .input_1 7⟩, [], [], 0) := by
  rfl

theorem rr_skip_debug_nil (kind : RR_log_entry_kind) :
    rr_skip_debug kind [] = [] := by
  unfold rr_skip_debug
  split <;> rfl

theorem get_next_entry_eq_empty (s t : ReplayState) (current : RR_prog_point)
    (kind : RR_log_entry_kind) (call_site : Nat) (check_callsite : Bool)
    (hfill : (if s.queue.isEmpty then rr_fill_queue s else some s) = some t)
    (hq : t.queue = []) :
    get_next_entry s current kind call_site check_callsite = some (none, t) := by
  rw [get_next_entry_eq s t current kind call_site check_callsite hfill,
    if_pos (by simp [hq])]

theorem get_next_entry_eq_skip_nil (s t : ReplayState) (current : RR_prog_point)
    (kind : RR_log_entry_kind) (call_site : Nat) (check_callsite : Bool)
    (hfill : (if s.queue.isEmpty then rr_fill_queue s else some s) = some t)
    (hq : t.queue ≠ []) (hskip : rr_skip_debug kind t.queue = []) :
    get_next_entry s current kind call_site check_callsite = none := by
  rw [get_next_entry_eq s t current kind call_site check_callsite hfill,
    if_neg (by simp [hq]), hskip]

theorem get_next_entry_eq_cons (s t : ReplayState) (current : RR_prog_point)
    (kind : RR_log_entry_kind) (call_site : Nat) (check_callsite : Bool)
    (head : RR_log_entry) (rest : List RR_log_entry)
    (hfill : (if s.queue.isEmpty then rr_fill_queue s else some s) = some t)
    (hskip : rr_skip_debug kind t.queue = head :: rest) :
    get_next_entry s current kind call_site check_callsite =
      (if head.prog_point.guest_instr_count ≠ 0 ∧
          rr_prog_point_matches current head.prog_point kind = false then
        some (none, { t with queue := head :: rest })
      else if head.kind ≠ kind then some (none, { t with queue := head :: rest })
      else if check_callsite = true ∧ head.callsite_loc ≠ call_site then
        some (none, { t with queue := head :: rest })
      else some (some head, { t with queue := rest })) := by
  have hne : t.queue ≠ [] := by
    intro h0
    rw [h0, rr_skip_debug_nil] at hskip
    cases hskip
  rw [get_next_entry_eq s t current kind call_site check_callsite hfill,
    if_neg (by simp [hne]), hskip]

/-- **C9 (amended).** When `get_next_entry` is called with a kind that is
neither `INTERRUPT_REQUEST` nor `SKIPPED_CALL`, every leading `RR_DEBUG`
entry is removed from the head of the queue before the head is compared —
but the removed entries are *not* added to the recycle pool: the pool, the
ring history and its index are untouched by `get_next_entry`. -/
theorem c9_debug_skip_drops (s t : ReplayState) (current : RR_prog_point)
    (kind : RR_log_entry_kind) (call_site : Nat) (check_callsite : Bool)
    (ro : Option RR_log_entry) (s' : ReplayState)
    (hfill : (if s.queue.isEmpty then rr_fill_queue s else some s) = some t)
    (h : get_next_entry s current kind call_site check_callsite = some (ro, s')) :
    s'.recycle = s.recycle ∧ s'.hist = s.hist ∧ s'.hist_index = s.hist_index ∧
    (s'.queue = rr_skip_debug kind t.queue ∨
      (∃ e, ro = some e ∧ e :: s'.queue = rr_skip_debug kind t.queue)) := by
  obtain ⟨hf1, hf2, hf3, -, -⟩ := get_next_refill_frame s t hfill
  by_cases hq : t.queue = []
  · rw [get_next_entry_eq_empty s t current kind call_site check_callsite hfill hq] at h
    simp only [Option.some.injEq, Prod.mk.injEq] at h
    obtain ⟨-, h2⟩ := h
    subst h2
    rw [hq, rr_skip_debug_nil]
    exact ⟨hf1, hf2, hf3, Or.inl rfl⟩
  · cases hskip : rr_skip_debug kind t.queue with
    | nil =>
      rw [get_next_entry_eq_skip_nil s t current kind call_site check_callsite
        hfill hq hskip] at h
      cases h
    | cons head rest =>
      rw [get_next_entry_eq_cons s t current kind call_site check_callsite
        head rest hfill hskip] at h
      split at h
      · simp only [Option.some.injEq, Prod.mk.injEq] at h
        obtain ⟨-, h2⟩ := h
        subst h2
        exact ⟨hf1, hf2, hf3, Or.inl rfl⟩
      · split at h
        · simp only [Option.some.injEq, Prod.mk.injEq] at h
          obtain ⟨-, h2⟩ := h
          subst h2
          exact ⟨hf1, hf2, hf3, Or.inl rfl⟩
        · split at h
          · simp only [Option.some.injEq, Prod.mk.injEq] at h
            obtain ⟨-, h2⟩ := h
            subst h2
            exact ⟨hf1, hf2, hf3, Or.inl rfl⟩
          · simp only [Option.some.injEq, Prod.mk.injEq] at h
            obtain ⟨h1, h2⟩ := h
            subst h2
            exact ⟨hf1, hf2, hf3, Or.inr ⟨head, h1.symm, rfl⟩⟩

theorem c9_debug_skip_drops_witness :
    ({ c9_state with queue := ([] : List RR_log_entry) }).recycle = c9_state.recycle ∧
    ({ c9_state with queue := ([] : List RR_log_entry) }).hist = c9_state.hist ∧
    ({ c9_state with queue := ([] : List RR_log_entry) }).hist_index = c9_state.hist_index :=
  ⟨(c9_debug_skip_drops c9_state c9_state ⟨1, 2, 3⟩ RR_INPUT_1 4 false
      (some ⟨⟨1, 2, 3⟩, 4, .input_1 7⟩) { c9_state with queue := [] } rfl (by rfl)).1,
   (c9_debug_skip_drops c9_state c9_state ⟨1, 2, 3⟩ RR_INPUT_1 4 false
      (some ⟨⟨1, 2, 3⟩, 4, .input_1 7⟩) { c9_state with queue := [] } rfl (by rfl)).2.1,
   (c9_debug_skip_drops c9_state c9_state ⟨1, 2, 3⟩ RR_INPUT_1 4 false
      (some ⟨⟨1, 2, 3⟩, 4, .input_1 7⟩) { c9_state with queue := [] } rfl (by rfl)).2.2.1⟩

/-! ## Claim C6: end-of-replay predicate -/

/-- A state in which the spec-worded predicate and `rr_replay_finished`
disagree: the queue head is `RR_LAST` and the guest count has passed the
header's final instruction count, but the log is not yet exhausted. -/
def c6_state : ReplayState :=
  { log := [⟨⟨7, 0, 0⟩, 2, .input_1 1⟩]
    header := ⟨0, 0, 0⟩
    queue := [⟨⟨0, 0, 0⟩, 1, .rlast⟩]
    recycle := []
    hist := List.replicate RR_HIST_SIZE default
    hist_index := 0
    interrupt_cache := 0 }

/-- **C6 counterexample.** The claim's predicate ("guest count ≥
`header.last_prog_point.instr` and the head is `LAST`") holds at `c6_state`
with guest count `5`, yet `rr_replay_finished` returns `false`: the code
additionally requires `rr_log_is_empty()` and compares against the *queue
head's* program point, not the header's. -/
theorem c6_counterexample :
    rr_replay_finished_spec c6_state 5 = true ∧
    rr_replay_finished c6_state 5 = false := by
  exact ⟨rfl, rfl⟩

/-- **C6 (amended).** `rr_replay_finished()` returns true exactly when the
log is fully consumed, the queue head is an `RR_LAST` entry, and the guest
instruction count is at least the *head entry's* recorded instruction count.
(For a log finalized by `rr_do_end_record` the header's `last_prog_point`
equals the `LAST` entry's program point, so on such logs the claim's reading
coincides with this one once the log is exhausted.) -/
theorem c6_replay_finished_characterization (s : ReplayState) (guest : Nat)
    (head : RR_log_entry) (rest : List RR_log_entry) (hq : s.queue = head :: rest) :
    rr_replay_finished s guest = true ↔
      (s.log = [] ∧ head.kind = RR_LAST ∧
        head.prog_point.guest_instr_count ≤ guest) := by
  unfold rr_replay_finished rr_log_is_empty
  rw [hq]
  simp [List.isEmpty_iff]

/-- Fully-consumed replay at its `LAST` entry. -/
def c6_good_state : ReplayState :=
  { log := []
    header := ⟨3, 0, 0⟩
    queue := [⟨⟨3, 0, 0⟩, 1, .rlast⟩]
    recycle := []
    hist := List.replicate RR_HIST_SIZE default
    hist_index := 0
    interrupt_cache := 0 }

theorem c6_replay_finished_characterization_witness :
    rr_replay_finished c6_good_state 5 = true :=
  (c6_replay_finished_characterization c6_good_state 5 ⟨⟨3, 0, 0⟩, 1, .rlast⟩ []
    rfl).mpr (by decide)

/-! ## Claim C7: exit-request semantics -/

/-- **C7.** `rr_record_exit_request(call_site, v)` writes a log entry iff `v`
is nonzero — so no `EXIT_REQUEST` entry in a produced log carries `0` — and
`rr_replay_exit_request` outputs `0` when no matching entry is due, otherwise
outputs the recorded value and recycles the entry, with a callsite mismatch
being a fatal assertion. -/
theorem c7_exit_request_semantics :
    (∀ (s : RecordState) (call_site : Nat) (pp : RR_prog_point) (v : Nat)
        (s' : RecordState), rr_record_exit_request s call_site pp v = some s' →
        ((v = 0 → s' = s) ∧
         (v ≠ 0 → s'.log = s.log ++ [⟨pp, call_site, .exit_request v⟩]))) ∧
    (∀ (ops : List RecordOp) (s0 s : RecordState), s0.log = [] →
        runRecord ops s0 = some s → ∀ e ∈ s.log, exit_nonzero e) ∧
    (∀ (s : ReplayState) (current : RR_prog_point) (call_site : Nat)
        (s1 : ReplayState),
        get_next_entry s current RR_EXIT_REQUEST call_site false = some (none, s1) →
        rr_replay_exit_request s current call_site = some (0, s1)) ∧
    (∀ (s : ReplayState) (current : RR_prog_point) (call_site : Nat)
        (e : RR_log_entry) (s1 : ReplayState),
        get_next_entry s current RR_EXIT_REQUEST call_site false = some (some e, s1) →
        ((e.callsite_loc = call_site →
            rr_replay_exit_request s current call_site =
              some (e.exit_value, add_to_recycle_list s1 e)) ∧
         (e.callsite_loc ≠ call_site →
            rr_replay_exit_request s current call_site = none))) := by
  refine ⟨?_, ?_, ?_, ?_⟩
  · intro s cs pp v s' h
    constructor
    · intro hv
      unfold rr_record_exit_request at h
      rw [if_neg (by simp [hv])] at h
      cases h
      rfl
    · intro hv
      unfold rr_record_exit_request at h
      rw [if_pos hv] at h
      exact (rr_write_item_state_some _ _ _ h).1
  · intro ops s0 s h0 hrun
    apply runRecord_inv (fun st => ∀ e ∈ st.log, exit_nonzero e)
      exit_nonzero_step ops s0 s hrun
    intro e he
    rw [h0] at he
    cases he
  · intro s current cs s1 h
    unfold rr_replay_exit_request
    rw [h]
  · intro s current cs e s1 h
    constructor
    · intro hcs
      unfold rr_replay_exit_request
      rw [h]
      simp only [hcs]
      rw [if_neg (by simp)]
    · intro hcs
      unfold rr_replay_exit_request
      rw [h]
      show (if e.callsite_loc ≠ cs then none
        else some (e.exit_value, add_to_recycle_list s1 e)) = none
      rw [if_pos hcs]

/-- Empty replay: no `EXIT_REQUEST` is due. -/
def c7_state : ReplayState :=
  { log := []
    header := ⟨0, 0, 0⟩
    queue := []
    recycle := []
    hist := List.replicate RR_HIST_SIZE default
    hist_index := 0
    interrupt_cache := 0 }

theorem c7_exit_request_semantics_witness :
    rr_replay_exit_request c7_state ⟨1, 0, 0⟩ 3 = some (0, c7_state) :=
  c7_exit_request_semantics.2.2.1 c7_state ⟨1, 0, 0⟩ 3 c7_state (by rfl)

/-! ## Claim C10: the fill-queue assertion never fails -/

/-- Any `INTERRUPT_REQUEST` entry in the queue sits at the tail: no entry
strictly before the last position is an interrupt. -/
def int_only_at_tail (q : List RR_log_entry) : Prop :=
  ∀ i, i + 1 < q.length → (q.getD i default).kind ≠ RR_INTERRUPT_REQUEST

theorem rr_fill_queue_int_tail (s s' : ReplayState)
    (h : rr_fill_queue s = some s') : int_only_at_tail s'.queue := by
  unfold rr_fill_queue at h
  split at h
  · cases h
    obtain ⟨-, -, -, h4⟩ := rr_fill_queue_loop_spec s.log 0 (by omega) _ _ rfl
    intro i hi
    have h5 := h4 i (by simpa using hi)
    simp only [rr_fill_cutoff, decide_eq_false_iff_not] at h5
    push_neg at h5
    exact h5.2.1
  · cases h

theorem rr_skip_debug_int (q : List RR_log_entry) :
    rr_skip_debug RR_INTERRUPT_REQUEST q = q := by
  unfold rr_skip_debug
  rw [if_neg]
  simp

theorem ite_chain_ne_none {a b c : Prop} [Decidable a] [Decidable b] [Decidable c]
    {w x y z : Option RR_log_entry × ReplayState} :
    (if a then some w else if b then some x else if c then some y else some z) ≠
      none := by
  split
  · simp
  · split
    · simp
    · split <;> simp

theorem ite_chain_some_some {a b c : Prop} [Decidable a] [Decidable b] [Decidable c]
    {w x y z s1 : ReplayState} {hd e : RR_log_entry}
    (heq : (if a then some (none, w) else if b then some (none, x)
      else if c then some (none, y) else some (some hd, z)) =
      some (some e, s1)) :
    e = hd ∧ s1 = z ∧ ¬ b := by
  revert heq
  split
  · intro heq
    simp at heq
  · split
    · intro heq
      simp at heq
    · rename_i hna hnb
      split
      · intro heq
        simp at heq
      · intro heq
        simp only [Option.some.injEq, Prod.mk.injEq] at heq
        exact ⟨heq.1.symm, heq.2.symm, hnb⟩

theorem replay_interrupt_isSome_aux (s t : ReplayState) (current : RR_prog_point)
    (call_site : Nat)
    (hfill : (if s.queue.isEmpty then rr_fill_queue s else some s) = some t)
    (hinvt : int_only_at_tail t.queue) :
    (rr_replay_interrupt_request s current call_site).isSome := by
  unfold rr_replay_interrupt_request
  by_cases hq : t.queue = []
  · rw [get_next_entry_eq_empty s t current RR_INTERRUPT_REQUEST call_site true
      hfill hq]
    rfl
  · cases htq : t.queue with
    | nil => exact absurd htq hq
    | cons head rest =>
      have hskip : rr_skip_debug RR_INTERRUPT_REQUEST t.queue = head :: rest := by
        rw [rr_skip_debug_int, htq]
      rw [get_next_entry_eq_cons s t current RR_INTERRUPT_REQUEST call_site true
        head rest hfill hskip]
      split
      · rename_i heq
        exact absurd heq ite_chain_ne_none
      · rfl
      · rename_i e s1 heq
        obtain ⟨rfl, rfl, hnb⟩ := ite_chain_some_some heq
        have hk : e.kind = RR_INTERRUPT_REQUEST := by
          by_contra hkk
          exact hnb hkk
        have hrest : rest = [] := by
          cases rest with
          | nil => rfl
          | cons x xs =>
            exfalso
            have hlen : 0 + 1 < t.queue.length := by
              rw [htq]
              simp
            have hint := hinvt 0 hlen
            rw [htq] at hint
            simp only [List.getD_cons_zero] at hint
            exact hint hk
        subst hrest
        have hgen : ∀ w : ReplayState, w.queue = [] →
            (match rr_fill_queue w with
             | none => (none : Option (Nat × ReplayState))
             | some s3 => some (s3.interrupt_cache, s3)).isSome = true := by
          intro w hw
          unfold rr_fill_queue
          rw [if_pos (by simp [hw])]
          rfl
        exact hgen (add_to_recycle_list
          ({ log := t.log, header := t.header, queue := [], recycle := t.recycle,
             hist := t.hist, hist_index := t.hist_index,
             interrupt_cache := e.interrupt_value } : ReplayState) e) rfl

/-- **C10.** `rr_fill_queue` asserts the prefetch queue is empty on entry,
and the assertion never fails: a fill on an empty queue always succeeds, any
queue it produces has interrupts only at the tail, and under that invariant
`rr_replay_interrupt_request` never hits the assertion — when it consumes an
`INTERRUPT_REQUEST` entry that entry was necessarily the tail of the queue,
so its own `rr_fill_queue` call sees an empty queue. -/
theorem c10_fill_precondition :
    (∀ s : ReplayState, s.queue = [] → (rr_fill_queue s).isSome) ∧
    (∀ s s' : ReplayState, rr_fill_queue s = some s' →
        int_only_at_tail s'.queue) ∧
    (∀ (s : ReplayState) (current : RR_prog_point) (call_site : Nat),
        int_only_at_tail s.queue →
        (rr_replay_interrupt_request s current call_site).isSome) := by
  refine ⟨?_, fun s s' h => rr_fill_queue_int_tail s s' h, ?_⟩
  · intro s hq
    unfold rr_fill_queue
    rw [if_pos (by simp [hq])]
    rfl
  · intro s current call_site hinv
    by_cases hq : s.queue = []
    · have hfs : rr_fill_queue s = some { s with
          queue := (rr_fill_queue_loop s.log 0).1
          log := (rr_fill_queue_loop s.log 0).2 } := by
        unfold rr_fill_queue
        rw [if_pos (by simp [hq])]
      obtain ⟨t, ht⟩ : ∃ t, rr_fill_queue s = some t := ⟨_, hfs⟩
      exact replay_interrupt_isSome_aux s t current call_site
        (by rw [if_pos (by simp [hq])]; exact ht)
        (rr_fill_queue_int_tail s t ht)
    · refine replay_interrupt_isSome_aux s s current call_site ?_ hinv
      rw [if_neg (by simp [hq])]

/-- One pending interrupt at the queue tail. -/
def c10_state : ReplayState :=
  { log := [⟨⟨6, 0, 0⟩, 2, .input_1 9⟩]
    header := ⟨9, 0, 0⟩
    queue := [⟨⟨5, 0, 0⟩, 3, .interrupt_request 2⟩]
    recycle := []
    hist := List.replicate RR_HIST_SIZE default
    hist_index := 0
    interrupt_cache := 0 }

theorem c10_fill_precondition_witness :
    (rr_replay_interrupt_request c10_state ⟨5, 0, 0⟩ 3).isSome :=
  c10_fill_precondition.2.2 c10_state ⟨5, 0, 0⟩ 3
    (by intro i hi; simp [c10_state] at hi)
